import Mathlib

/-!
# go-pingdom: a shallow embedding of `pingdom.go`

The Go package is a thin REST client.  Every function of `pingdom.go` is
transcribed below as a Lean function of the same name.

Conventions of the embedding.

* A Go call either returns or ends in a run-time panic (here always a nil
  pointer dereference); `Outcome` records which.
* A Go `error` is a value of `GoError`; a nil `error` is `none`.
* Go strings are Lean strings (so only valid UTF-8 text is represented); Go
  `int`/`int64` are Lean integers, with the 64-bit range made explicit where the
  code depends on it (JSON decoding).
* The standard library is not part of the repository.  `net/url.Parse`, the
  JSON syntax scanner of `encoding/json` and the HTTP transport are parameters
  (`Lib`, `Client.client`); what the library does with values once it has them
  (`url.Values`, `QueryEscape`, struct decoding, `fmt.Sprintf`, `strconv.Itoa`,
  method validation of `http.NewRequest`) is modelled after its documentation.
-/

namespace Pingdom

/-! ## Outcomes and errors -/

/-- Result of running a Go function: it returns a value, or the goroutine
panics on a nil pointer dereference. -/
inductive Outcome (α : Type) where
  | returned (a : α)
  | panicked
  deriving DecidableEq, Repr

/-- The error envelope payload, `type PingdomError struct`. -/
structure PingdomError where
  StatusCode : Int
  StatusDesc : String
  Message : String
  deriving DecidableEq, Repr

/-- Non-nil values of the Go interface `error` that the package can return. -/
inductive GoError where
  /-- an error made by `net/url`, `net/http` or the transport -/
  | lib (msg : String)
  /-- a `*json.SyntaxError`: the body is not valid JSON -/
  | jsonSyntax (msg : String)
  /-- a `*json.UnmarshalTypeError`; `value` is its `Value` field (for numbers
  Go appends the literal, which is left out here) -/
  | jsonType (value : String)
  /-- a `*PingdomError` -/
  | pingdom (e : PingdomError)
  deriving DecidableEq, Repr

/-! ## JSON values -/

/-- A syntactically valid JSON text, as `encoding/json` tokenises it.  A number
is `int` when its literal has neither fraction nor exponent (the literals
`strconv.ParseInt` accepts) and `real` otherwise; strings are unquoted. -/
inductive Json where
  | null
  | bool (b : Bool)
  | int (n : Int)
  | real (literal : String)
  | str (s : String)
  | arr (elems : List Json)
  | obj (members : List (String × Json))
  deriving Repr

/-! ## `strconv.Itoa` and `fmt.Sprintf` -/

/-- Decimal rendering of an integer, `strconv.Itoa` (and the verb `%d`). -/
def Itoa (i : Int) : String :=
  if i < 0 then "-" ++ Nat.repr i.natAbs else Nat.repr i.natAbs

/-- Operand of a formatting call. -/
inductive FmtArg where
  | int (i : Int)
  | str (s : String)

/-- Go type name of an operand, as printed in formatting diagnostics. -/
def FmtArg.typeName : FmtArg → String
  | .int _ => "int"
  | .str _ => "string"

/-- Default (`%v`) rendering of an operand. -/
def FmtArg.value : FmtArg → String
  | .int i => Itoa i
  | .str s => s

/-- One formatting directive applied to one operand.  The verbs `d`, `s` and
`v` are modelled; any other verb is rendered the way Go renders a verb that
does not fit its operand. -/
def fmtVerb (verb : Char) (a : FmtArg) : String :=
  match verb, a with
  | 'd', .int i => Itoa i
  | 's', .str s => s
  | 'v', a => a.value
  | c, a => "%!" ++ c.toString ++ "(" ++ a.typeName ++ "=" ++ a.value ++ ")"

/-- What `fmt.Sprintf` appends for operands the format did not use. -/
def fmtExtra : List FmtArg → String
  | [] => ""
  | args => "%!(EXTRA " ++ ", ".intercalate (args.map fun x => x.typeName ++ "=" ++ x.value) ++ ")"

/-- The scanning loop of `fmt.Sprintf` over the format's characters. -/
def sprintfLoop : List Char → List FmtArg → String
  | [], args => fmtExtra args
  | ['%'], args => "%!(NOVERB)" ++ fmtExtra args
  | '%' :: '%' :: fmt, args => "%" ++ sprintfLoop fmt args
  | '%' :: v :: fmt, [] => "%!" ++ v.toString ++ "(MISSING)" ++ sprintfLoop fmt []
  | '%' :: v :: fmt, a :: rest => fmtVerb v a ++ sprintfLoop fmt rest
  | c :: fmt, args => c.toString ++ sprintfLoop fmt args

/-- The function `fmt.Sprintf`. -/
def Sprintf (format : String) (args : List FmtArg) : String :=
  sprintfLoop format.data args

/-- Method `func (r *PingdomError) Error() string`. -/
def PingdomError.Error (r : PingdomError) : String :=
  Sprintf "%d %v: %v" [.int r.StatusCode, .str r.StatusDesc, .str r.Message]

/-! ## Go maps and `net/url` -/

/-- A Go `map[string]string`, given by its entries in one of the orders in
which a `range` loop may visit them.  The keys of a map are pairwise distinct
(`GoMap.WF`). -/
abbrev GoMap := List (String × String)

/-- Keys of a map are pairwise distinct. -/
def GoMap.WF (m : GoMap) : Prop := (m.map Prod.fst).Nodup

instance GoMap.WF.decidable (m : GoMap) : Decidable (GoMap.WF m) :=
  inferInstanceAs (Decidable (List.Nodup _))

/-- Map index expression `m[k]` with the comma-ok flag. -/
def GoMap.get? (m : GoMap) (k : String) : Option String := List.lookup k m

/-- Built-in `delete(m, k)`. -/
def GoMap.delete (m : GoMap) (k : String) : GoMap := m.filter fun e => e.1 != k

/-- The type `url.Values`, a `map[string][]string`. -/
abbrev Values := List (String × List String)

/-- Method `Values.Set`: `v[key] = []string{value}`. -/
def Values.Set (v : Values) (key value : String) : Values :=
  (key, [value]) :: v.filter fun e => e.1 != key

/-- Method `Header.Add` / `Values.Add`: `v[key] = append(v[key], value)`. -/
def Values.Add (v : Values) (key value : String) : Values :=
  (key, (List.lookup key v).getD [] ++ [value]) :: v.filter fun e => e.1 != key

/-- Bytewise comparison of two Go strings.  On valid UTF-8 the order of the
encodings is the order of the code point sequences, which is what is compared
here. -/
def leChars : List Char → List Char → Bool
  | [], _ => true
  | _ :: _, [] => false
  | a :: s, b :: t =>
    if a.toNat < b.toNat then true
    else if b.toNat < a.toNat then false
    else leChars s t

/-- Order in which `slices.Sort` arranges strings. -/
def keyLE (a b : String) : Prop := leChars a.data b.data = true

instance keyLE.decidable : DecidableRel keyLE := fun a b =>
  inferInstanceAs (Decidable (leChars a.data b.data = true))

/-- Upper-case hexadecimal digit of a value below 16. -/
def upperhex (n : Nat) : Char := "0123456789ABCDEF".data.getD n '0'

/-- Function `shouldEscape(c, encodeQueryComponent)` of `net/url`: everything
but ASCII letters, digits and `-`, `_`, `.`, `~` is escaped. -/
def shouldEscape (c : Nat) : Bool :=
  !((97 ≤ c && c ≤ 122) || (65 ≤ c && c ≤ 90) || (48 ≤ c && c ≤ 57)
    || c == 45 || c == 95 || c == 46 || c == 126)

/-- Escaping of one byte in a query component: a space becomes `+`, another
escaped byte becomes `%XX`. -/
def escapeByte (c : Nat) : List Char :=
  if shouldEscape c then
    if c = 32 then ['+'] else ['%', upperhex (c / 16), upperhex (c % 16)]
  else [Char.ofNat c]

/-- Bytes of a Go string. -/
def bytesOf (s : String) : List Nat :=
  (s.data.flatMap String.utf8EncodeChar).map UInt8.toNat

/-- Function `url.QueryEscape`. -/
def QueryEscape (s : String) : String := ⟨(bytesOf s).flatMap escapeByte⟩

/-- One pass of the inner loop of `Values.Encode`: write one `key=value`
pair to the buffer, after a `&` when the buffer is not empty. -/
def Values.writePair (keyEscaped : String) (buf v : String) : String :=
  (if buf.length > 0 then buf.push '&' else buf) ++ keyEscaped ++ "=" ++ QueryEscape v

/-- The outer loop of `Values.Encode` over the sorted keys. -/
def Values.encodeLoop (v : Values) : List String → String → String
  | [], buf => buf
  | k :: keys, buf =>
    let vs := (List.lookup k v).getD []
    let keyEscaped := QueryEscape k
    Values.encodeLoop v keys (vs.foldl (Values.writePair keyEscaped) buf)

/-- Method `Values.Encode`: the pairs in URL-encoded form, sorted by key. -/
def Values.Encode (v : Values) : String :=
  if v.length = 0 then ""
  else Values.encodeLoop v (List.insertionSort keyLE (v.map Prod.fst)) ""

/-- The parts of a `url.URL` that the client touches: `RawQuery` and
`ForceQuery` as in Go; `head` is what `String()` prints before the query
(scheme, authority, path) and `tail` what it prints after it (the fragment
with its `#`, or nothing). -/
structure URL where
  head : String
  ForceQuery : Bool
  RawQuery : String
  tail : String
  deriving DecidableEq, Repr

/-- Method `URL.String`. -/
def URL.String (u : URL) : String :=
  u.head ++ (if u.ForceQuery || u.RawQuery != "" then "?" ++ u.RawQuery else "") ++ u.tail

/-! ## `net/http` -/

/-- The type `http.Request`, as far as the client fills it in. -/
structure Request where
  Method : String
  URL : URL
  Header : Values
  deriving DecidableEq, Repr

/-- The type `http.Response` as the client reads it: the status code and the
bytes `ioutil.ReadAll` yields from the body (a read error is ignored by the
caller, so the body is whatever was read). -/
structure Response where
  StatusCode : Int
  Body : String
  deriving DecidableEq, Repr

/-- Method `http.Client.Do`: a response or nil, and an error or nil. -/
abbrev HttpClient := Request → Option Response × Option GoError

/-- Character `n` of the standard base64 alphabet. -/
def b64Char (n : Nat) : Char :=
  "ABCDEFGHIJKLMNOPQRSTUVWXYZabcdefghijklmnopqrstuvwxyz0123456789+/".data.getD n '='

/-- Standard padded base64 of a byte sequence. -/
def base64 : List Nat → List Char
  | a :: b :: c :: rest =>
    b64Char (a / 4) :: b64Char (a % 4 * 16 + b / 16) :: b64Char (b % 16 * 4 + c / 64)
      :: b64Char (c % 64) :: base64 rest
  | [a, b] => [b64Char (a / 4), b64Char (a % 4 * 16 + b / 16), b64Char (b % 16 * 4), '=']
  | [a] => [b64Char (a / 4), b64Char (a % 4 * 16), '=', '=']
  | [] => []

/-- Method `Request.SetBasicAuth`. -/
def Request.SetBasicAuth (r : Request) (username password : String) : Request :=
  let auth := "Basic " ++ String.mk (base64 (bytesOf (username ++ ":" ++ password)))
  { r with Header := Values.Set r.Header "Authorization" auth }

/-- Token characters of RFC 7230, the characters of a valid HTTP method:
ASCII letters and digits and the fifteen signs ! # $ % & ' * + - . ^ _ ` | ~
(given by code). -/
def isTokenChar (c : Char) : Bool :=
  c.isAlphanum || [33, 35, 36, 37, 38, 39, 42, 43, 45, 46, 94, 95, 96, 124, 126].contains c.toNat

/-- Function `validMethod` of `net/http`. -/
def validMethod (method : String) : Bool :=
  method.length > 0 && method.data.all isTokenChar

/-- The standard library as the client sees it. -/
structure Lib where
  /-- function `url.Parse` -/
  urlParse : String → Except GoError URL
  /-- syntax check and tokenisation of `encoding/json`: the value a body
  denotes, or the message of the syntax error -/
  jsonScan : String → Except String Json
  /-- variable `http.DefaultClient` -/
  DefaultClient : HttpClient

/-- Function `http.NewRequest`: an empty method means GET, the method must be
a token and the URL must parse; exactly one of request and error is nil. -/
def httpNewRequest (lib : Lib) (method url : String) : Except GoError Request :=
  let method := if method = "" then "GET" else method
  if !validMethod method then .error (.lib ("net/http: invalid method " ++ method))
  else
    match lib.urlParse url with
    | .error e => .error e
    | .ok u => .ok { Method := method, URL := u, Header := [] }

/-! ## The client -/

/-- Constant `defaultBaseURL`. -/
def defaultBaseURL : String := "https://api.pingdom.com/"

/-- The type `Client`.  `BaseURL` is a pointer and may be nil (`none`). -/
structure Client where
  User : String
  Password : String
  APIKey : String
  BaseURL : Option URL
  client : HttpClient

/-- Function `NewClient`; the error of `url.Parse` is dropped, which leaves a
nil `BaseURL` when there is one. -/
def NewClient (lib : Lib) (user password key : String) : Client :=
  let baseURL := match lib.urlParse defaultBaseURL with
    | .ok u => some u
    | .error _ => none
  ⟨user, password, key, baseURL, lib.DefaultClient⟩

/-- The `url.Values` built by the loop `for k, v := range params { ps.Set(k, v) }`. -/
def paramValues (params : GoMap) : Values :=
  params.foldl (fun ps kv => Values.Set ps kv.1 kv.2) []

/-- Method `Client.NewRequest`.  `pc.BaseURL.String()` dereferences
`BaseURL`; `req.SetBasicAuth` dereferences the request that
`http.NewRequest` returned, which is nil when it returned an error. -/
def NewRequest (lib : Lib) (pc : Client) (method rsc : String) (params : Option GoMap) :
    Outcome (Option Request × Option GoError) :=
  match pc.BaseURL with
  | none => .panicked
  | some base =>
    match lib.urlParse (base.String ++ rsc) with
    | .error err => .returned (none, some err)
    | .ok baseUrl =>
      let baseUrl := match params with
        | none => baseUrl
        | some params => { baseUrl with RawQuery := (paramValues params).Encode }
      match httpNewRequest lib method baseUrl.String with
      | .error _ => .panicked
      | .ok req =>
        let req := req.SetBasicAuth pc.User pc.Password
        let req := { req with Header := Values.Add req.Header "App-Key" pc.APIKey }
        .returned (some req, none)

/-! ## The wire types -/

/-- The type `Check`. -/
structure Check where
  ID : Int
  Name : String
  Resolution : Int
  SendToEmail : Bool
  SendToTwitter : Bool
  SendToIPhone : Bool
  SendNotificationWhenDown : Int
  NotifyAgainEvery : Int
  NotifyWhenBackup : Bool
  Created : Int
  Hostname : String
  Status : String
  LastErrorTime : Int
  LastTestTime : Int
  LastResponseTime : Int
  deriving DecidableEq, Repr

/-- The zero value of `Check`. -/
def Check.zero : Check :=
  ⟨0, "", 0, false, false, false, 0, 0, false, 0, "", "", 0, 0, 0⟩

/-- The type `CheckResponse`. -/
structure CheckResponse where
  Check : Check
  deriving DecidableEq, Repr

/-- A value of type `[]Check`: the elements up to the length (`none` for the
nil slice) and `spare`, the elements of the backing array past the length,
which a later decode into the same slice reuses. -/
structure CheckSlice where
  elems : Option (List Check)
  spare : List Check
  deriving DecidableEq, Repr

/-- The type `ListChecksResponse`. -/
structure ListChecksResponse where
  Checks : CheckSlice
  deriving DecidableEq, Repr

/-- The type `PingdomResponse`. -/
structure PingdomResponse where
  Message : String
  deriving DecidableEq, Repr

/-- The type `PingdomErrorResponse`. -/
structure PingdomErrorResponse where
  Error : PingdomError
  deriving DecidableEq, Repr

/-! ## `encoding/json`: decoding a value into a Go variable

Decoding works in place: a decoder takes the JSON value and the current
content of the variable and gives the new content and the error it recorded,
if any.  The decoder keeps the first error and goes on decoding. -/

/-- Kind of a JSON value as `UnmarshalTypeError.Value` names it. -/
def Json.kindName : Json → String
  | .null => "null"
  | .bool _ => "bool"
  | .int _ => "number"
  | .real _ => "number"
  | .str _ => "string"
  | .arr _ => "array"
  | .obj _ => "object"

/-- The first of two recorded errors (`decodeState.saveError`). -/
def firstError (e₁ e₂ : Option GoError) : Option GoError :=
  match e₁ with
  | some e => some e
  | none => e₂

/-- Range of `int` and `int64` (64-bit platform). -/
def fitsInt64 (n : Int) : Prop := -9223372036854775808 ≤ n ∧ n ≤ 9223372036854775807

instance fitsInt64.decidable (n : Int) : Decidable (fitsInt64 n) :=
  inferInstanceAs (Decidable (_ ∧ _))

/-- Decode into an `int` or `int64`: an integer literal in range is stored,
`null` changes nothing, anything else is a type error. -/
def storeInt (v : Json) (cur : Int) : Int × Option GoError :=
  match v with
  | .null => (cur, none)
  | .int n => if fitsInt64 n then (n, none) else (cur, some (.jsonType "number"))
  | v => (cur, some (.jsonType v.kindName))

/-- Decode into a `string`. -/
def storeString (v : Json) (cur : String) : String × Option GoError :=
  match v with
  | .null => (cur, none)
  | .str s => (s, none)
  | v => (cur, some (.jsonType v.kindName))

/-- Decode into a `bool`. -/
def storeBool (v : Json) (cur : Bool) : Bool × Option GoError :=
  match v with
  | .null => (cur, none)
  | .bool b => (b, none)
  | v => (cur, some (.jsonType v.kindName))

/-- Case folding of one character of an object key.  It agrees with the folding
of `encoding/json` on every character that folds to an ASCII character: the
lower-case letters, U+017F (long s) and U+212A (Kelvin sign). -/
def foldRune (c : Char) : Char :=
  if 97 ≤ c.toNat ∧ c.toNat ≤ 122 then Char.ofNat (c.toNat - 32)
  else if c.toNat = 0x17F then 'S'
  else if c.toNat = 0x212A then 'K'
  else c

/-- Case folding of an object key. -/
def foldName (s : String) : String := ⟨s.data.map foldRune⟩

/-- The field an object key names: the field whose JSON name is the key, else
the first field whose name matches it up to case. -/
def lookupField {β : Type} (fields : List (String × β)) (key : String) : Option β :=
  match fields.find? fun f => f.1 == key with
  | some f => some f.2
  | none => (fields.find? fun f => foldName f.1 == foldName key).map Prod.snd

/-- One member of a JSON object decoded into a struct with the given field
table; a key that names no field is skipped. -/
def decodeMember {α : Type} (fields : List (String × (Json → α → α × Option GoError)))
    (acc : α × Option GoError) (kv : String × Json) : α × Option GoError :=
  match lookupField fields kv.1 with
  | none => acc
  | some store =>
    let r := store kv.2 acc.1
    (r.1, firstError acc.2 r.2)

/-- Decode into a struct with the given field table: the members of an object
are decoded in turn, `null` changes nothing, anything else is a type error. -/
def decodeStruct {α : Type} (fields : List (String × (Json → α → α × Option GoError)))
    (v : Json) (cur : α) : α × Option GoError :=
  match v with
  | .null => (cur, none)
  | .obj members => members.foldl (decodeMember fields) (cur, none)
  | v => (cur, some (.jsonType v.kindName))

/-- Field table of `Check`, from its `json` struct tags. -/
def checkFields : List (String × (Json → Check → Check × Option GoError)) :=
  [("id", fun v c => let r := storeInt v c.ID; ({ c with ID := r.1 }, r.2)),
   ("name", fun v c => let r := storeString v c.Name; ({ c with Name := r.1 }, r.2)),
   ("resolution", fun v c => let r := storeInt v c.Resolution; ({ c with Resolution := r.1 }, r.2)),
   ("sendtoemail", fun v c => let r := storeBool v c.SendToEmail; ({ c with SendToEmail := r.1 }, r.2)),
   ("sendtotwitter", fun v c => let r := storeBool v c.SendToTwitter; ({ c with SendToTwitter := r.1 }, r.2)),
   ("sendtoiphone", fun v c => let r := storeBool v c.SendToIPhone; ({ c with SendToIPhone := r.1 }, r.2)),
   ("sendnotificationwhendown", fun v c =>
      let r := storeInt v c.SendNotificationWhenDown; ({ c with SendNotificationWhenDown := r.1 }, r.2)),
   ("notifyagainevery", fun v c =>
      let r := storeInt v c.NotifyAgainEvery; ({ c with NotifyAgainEvery := r.1 }, r.2)),
   ("notifywhenbackup", fun v c =>
      let r := storeBool v c.NotifyWhenBackup; ({ c with NotifyWhenBackup := r.1 }, r.2)),
   ("created", fun v c => let r := storeInt v c.Created; ({ c with Created := r.1 }, r.2)),
   ("hostname", fun v c => let r := storeString v c.Hostname; ({ c with Hostname := r.1 }, r.2)),
   ("status", fun v c => let r := storeString v c.Status; ({ c with Status := r.1 }, r.2)),
   ("lasterrortime", fun v c => let r := storeInt v c.LastErrorTime; ({ c with LastErrorTime := r.1 }, r.2)),
   ("lasttesttime", fun v c => let r := storeInt v c.LastTestTime; ({ c with LastTestTime := r.1 }, r.2)),
   ("lastresponsetime", fun v c =>
      let r := storeInt v c.LastResponseTime; ({ c with LastResponseTime := r.1 }, r.2))]

/-- Decode into a `Check`. -/
def decodeCheck : Json → Check → Check × Option GoError := decodeStruct checkFields

/-- Decode into a `CheckResponse`. -/
def decodeCheckResponse : Json → CheckResponse → CheckResponse × Option GoError :=
  decodeStruct [("check", fun v m => let r := decodeCheck v m.Check; ({ m with Check := r.1 }, r.2))]

/-- Decode the elements of a JSON array into a slice: element `i` is decoded
into what the backing array holds at `i`, or into a zero `Check` past its end. -/
def decodeElems : List Json → List Check → List Check × Option GoError
  | [], _ => ([], none)
  | x :: xs, backing =>
    let r := decodeCheck x (backing.headD Check.zero)
    let rest := decodeElems xs backing.tail
    (r.1 :: rest.1, firstError r.2 rest.2)

/-- Decode into a `[]Check`: `null` gives the nil slice, an empty array a new
empty slice, an array its elements in order, anything else is a type error. -/
def storeCheckSlice (v : Json) (cur : CheckSlice) : CheckSlice × Option GoError :=
  match v with
  | .null => (⟨none, []⟩, none)
  | .arr [] => (⟨some [], []⟩, none)
  | .arr xs =>
    let backing := cur.elems.getD [] ++ cur.spare
    let r := decodeElems xs backing
    (⟨some r.1, backing.drop xs.length⟩, r.2)
  | v => (cur, some (.jsonType v.kindName))

/-- Decode into a `ListChecksResponse`. -/
def decodeListChecksResponse : Json → ListChecksResponse → ListChecksResponse × Option GoError :=
  decodeStruct
    [("checks", fun v m => let r := storeCheckSlice v m.Checks; ({ m with Checks := r.1 }, r.2))]

/-- Decode into a `PingdomResponse`. -/
def decodePingdomResponse : Json → PingdomResponse → PingdomResponse × Option GoError :=
  decodeStruct
    [("message", fun v m => let r := storeString v m.Message; ({ m with Message := r.1 }, r.2))]

/-- Decode into a `PingdomError`. -/
def decodePingdomError : Json → PingdomError → PingdomError × Option GoError :=
  decodeStruct
    [("statuscode", fun v e => let r := storeInt v e.StatusCode; ({ e with StatusCode := r.1 }, r.2)),
     ("statusdesc", fun v e => let r := storeString v e.StatusDesc; ({ e with StatusDesc := r.1 }, r.2)),
     ("errormessage", fun v e => let r := storeString v e.Message; ({ e with Message := r.1 }, r.2))]

/-- Decode into a `PingdomErrorResponse`. -/
def decodePingdomErrorResponse :
    Json → PingdomErrorResponse → PingdomErrorResponse × Option GoError :=
  decodeStruct
    [("error", fun v m => let r := decodePingdomError v m.Error; ({ m with Error := r.1 }, r.2))]

/-- The call `json.Unmarshal(data, &m)` of the package, where `m` is a
pointer to the struct `v` and `&m` a pointer to that pointer.  It gives the
pointer `m` afterwards and the error.  Invalid JSON is a syntax error and
leaves `m` alone; the JSON value `null` sets the pointer `m` to nil (`none`);
any other value is decoded into the struct `m` points to. -/
def Unmarshal {α : Type} (lib : Lib) (decode : Json → α → α × Option GoError)
    (data : String) (v : α) : Option α × Option GoError :=
  match lib.jsonScan data with
  | .error msg => (some v, some (.jsonSyntax msg))
  | .ok .null => (none, none)
  | .ok j =>
    let r := decode j v
    (some r.1, r.2)

/-! ## The operations of `pingdom.go` -/

/-- Function `ValidateResponse`.  `&m.Error` dereferences `m`. -/
def ValidateResponse (lib : Lib) (r : Response) : Outcome (Option GoError) :=
  if 200 ≤ r.StatusCode ∧ r.StatusCode ≤ 299 then .returned none
  else
    match Unmarshal lib decodePingdomErrorResponse r.Body ⟨⟨0, "", ""⟩⟩ with
    | (_, some err) => .returned (some err)
    | (none, none) => .panicked
    | (some m, none) => .returned (some (.pingdom m.Error))

/-- Method `Check.Params`. -/
def Check.Params (ck : Check) : GoMap :=
  [("name", ck.Name), ("host", ck.Hostname), ("type", "http")]

/-- Method `Client.ListChecks`.  The statement `defer resp.Body.Close()`
evaluates `resp.Body` before the error of `Do` is looked at, and `m.Checks`
dereferences `m`. -/
def ListChecks (lib : Lib) (pc : Client) : Outcome (Option (List Check) × Option GoError) :=
  match NewRequest lib pc "GET" "/api/2.0/checks" none with
  | .panicked => .panicked
  | .returned (_, some err) => .returned (none, some err)
  | .returned (none, none) => .panicked
  | .returned (some req, none) =>
    match pc.client req with
    | (none, _) => .panicked
    | (some _, some err) => .returned (none, some err)
    | (some resp, none) =>
      match ValidateResponse lib resp with
      | .panicked => .panicked
      | .returned (some err) => .returned (none, some err)
      | .returned none =>
        match Unmarshal lib decodeListChecksResponse resp.Body ⟨⟨none, []⟩⟩ with
        | (none, _) => .panicked
        | (some m, err) => .returned (m.Checks.elems, err)

/-- Method `Client.CreateCheck`.  `&m.Check` dereferences `m`. -/
def CreateCheck (lib : Lib) (pc : Client) (check : Check) :
    Outcome (Option Check × Option GoError) :=
  match NewRequest lib pc "POST" "/api/2.0/checks" (some check.Params) with
  | .panicked => .panicked
  | .returned (_, some err) => .returned (none, some err)
  | .returned (none, none) => .panicked
  | .returned (some req, none) =>
    match pc.client req with
    | (none, _) => .panicked
    | (some _, some err) => .returned (none, some err)
    | (some resp, none) =>
      match ValidateResponse lib resp with
      | .panicked => .panicked
      | .returned (some err) => .returned (none, some err)
      | .returned none =>
        match Unmarshal lib decodeCheckResponse resp.Body ⟨Check.zero⟩ with
        | (none, _) => .panicked
        | (some m, err) => .returned (some m.Check, err)

/-- Method `Client.ReadCheck`. -/
def ReadCheck (lib : Lib) (pc : Client) (id : Int) : Outcome (Option Check × Option GoError) :=
  match NewRequest lib pc "GET" ("/api/2.0/checks/" ++ Itoa id) none with
  | .panicked => .panicked
  | .returned (_, some err) => .returned (none, some err)
  | .returned (none, none) => .panicked
  | .returned (some req, none) =>
    match pc.client req with
    | (none, _) => .panicked
    | (some _, some err) => .returned (none, some err)
    | (some resp, none) =>
      match ValidateResponse lib resp with
      | .panicked => .panicked
      | .returned (some err) => .returned (none, some err)
      | .returned none =>
        match Unmarshal lib decodeCheckResponse resp.Body ⟨Check.zero⟩ with
        | (none, _) => .panicked
        | (some m, err) => .returned (some m.Check, err)

/-- The parameters of an update: `params := check.Params(); delete(params, "type")`. -/
def updateParams (check : Check) : GoMap := GoMap.delete check.Params "type"

/-- Method `Client.UpdateCheck`.  The pointer `m` is returned as it is, nil
included. -/
def UpdateCheck (lib : Lib) (pc : Client) (id : Int) (check : Check) :
    Outcome (Option PingdomResponse × Option GoError) :=
  match NewRequest lib pc "PUT" ("/api/2.0/checks/" ++ Itoa id) (some (updateParams check)) with
  | .panicked => .panicked
  | .returned (_, some err) => .returned (none, some err)
  | .returned (none, none) => .panicked
  | .returned (some req, none) =>
    match pc.client req with
    | (none, _) => .panicked
    | (some _, some err) => .returned (none, some err)
    | (some resp, none) =>
      match ValidateResponse lib resp with
      | .panicked => .panicked
      | .returned (some err) => .returned (none, some err)
      | .returned none => .returned (Unmarshal lib decodePingdomResponse resp.Body ⟨""⟩)

/-- Method `Client.DeleteCheck`. -/
def DeleteCheck (lib : Lib) (pc : Client) (id : Int) :
    Outcome (Option PingdomResponse × Option GoError) :=
  match NewRequest lib pc "DELETE" ("/api/2.0/checks/" ++ Itoa id) none with
  | .panicked => .panicked
  | .returned (_, some err) => .returned (none, some err)
  | .returned (none, none) => .panicked
  | .returned (some req, none) =>
    match pc.client req with
    | (none, _) => .panicked
    | (some _, some err) => .returned (none, some err)
    | (some resp, none) =>
      match ValidateResponse lib resp with
      | .panicked => .panicked
      | .returned (some err) => .returned (none, some err)
      | .returned none => .returned (Unmarshal lib decodePingdomResponse resp.Body ⟨""⟩)

/-! ## Reference instances of the library, for examples

The theorems below hold for every `Lib`.  The instances here give them
concrete inputs. -/

/-- JSON white space. -/
def isSpace (c : Char) : Bool := c.toNat == 32 || c.toNat == 9 || c.toNat == 13 || c.toNat == 10

/-- Drop leading white space. -/
def skipSpace : List Char → List Char
  | [] => []
  | c :: cs => if isSpace c then skipSpace cs else c :: cs

/-- Value of a hexadecimal digit. -/
def hexVal (c : Char) : Option Nat :=
  if c.isDigit then some (c.toNat - 48)
  else if 97 ≤ c.toNat ∧ c.toNat ≤ 102 then some (c.toNat - 87)
  else if 65 ≤ c.toNat ∧ c.toNat ≤ 70 then some (c.toNat - 55)
  else none

/-- Value of four hexadecimal digits. -/
def hex4 (a b c d : Char) : Option Nat :=
  match hexVal a, hexVal b, hexVal c, hexVal d with
  | some w, some x, some y, some z => some (((w * 16 + x) * 16 + y) * 16 + z)
  | _, _, _, _ => none

/-- The character a one-letter escape stands for. -/
def simpleEscape (c : Char) : Option Char :=
  if c = '"' then some '"'
  else if c = '\\' then some '\\'
  else if c = '/' then some '/'
  else if c = 'b' then some (Char.ofNat 8)
  else if c = 'f' then some (Char.ofNat 12)
  else if c = 'n' then some (Char.ofNat 10)
  else if c = 'r' then some (Char.ofNat 13)
  else if c = 't' then some (Char.ofNat 9)
  else none

/-- One unit of a string literal: a character written as it is, or the value
of a backslash-u escape with four hexadecimal digits. -/
inductive StrUnit where
  | ch (c : Char)
  | esc (n : Nat)

/-- The characters of a string literal from its units: an escape that is a
high surrogate followed by one that is a low surrogate is one character, any
other surrogate escape is U+FFFD. -/
def joinUnits : List StrUnit → List Char
  | [] => []
  | .ch c :: rest => c :: joinUnits rest
  | .esc hi :: .esc lo :: rest =>
    if 0xD800 ≤ hi ∧ hi < 0xDC00 ∧ 0xDC00 ≤ lo ∧ lo < 0xE000 then
      Char.ofNat ((hi - 0xD800) * 1024 + (lo - 0xDC00) + 0x10000) :: joinUnits rest
    else if 0xD800 ≤ hi ∧ hi < 0xE000 then Char.ofNat 0xFFFD :: joinUnits (.esc lo :: rest)
    else Char.ofNat hi :: joinUnits (.esc lo :: rest)
  | .esc n :: rest =>
    if 0xD800 ≤ n ∧ n < 0xE000 then Char.ofNat 0xFFFD :: joinUnits rest
    else Char.ofNat n :: joinUnits rest

/-- The rest of a string literal after its opening quote: its units (last
first in `acc`) and what follows the closing quote. -/
def scanString : List Char → List StrUnit → Option (String × List Char)
  | [], _ => none
  | '"' :: rest, acc => some (String.mk (joinUnits acc.reverse), rest)
  | '\\' :: 'u' :: a :: b :: c :: d :: rest, acc =>
    match hex4 a b c d with
    | none => none
    | some n => scanString rest (.esc n :: acc)
  | '\\' :: e :: rest, acc =>
    match simpleEscape e with
    | none => none
    | some c => scanString rest (.ch c :: acc)
  | c :: rest, acc => if c.toNat < 32 then none else scanString rest (.ch c :: acc)

/-- Split off the leading decimal digits. -/
def takeDigits : List Char → List Char × List Char
  | [] => ([], [])
  | c :: cs => if c.isDigit then let r := takeDigits cs; (c :: r.1, r.2) else ([], c :: cs)

/-- Value of a sequence of decimal digits. -/
def digitsValue (ds : List Char) : Nat := ds.foldl (fun n c => n * 10 + (c.toNat - 48)) 0

/-- A number literal. -/
def scanNumber (cs : List Char) : Option (Json × List Char) :=
  let (neg, cs1) := match cs with
    | '-' :: r => (true, r)
    | r => (false, r)
  let (ip, cs2) := takeDigits cs1
  if ip = [] ∨ (ip.length > 1 ∧ ip.head? = some '0') then none
  else
    let fracPart : Option (List Char × List Char) := match cs2 with
      | '.' :: r => let (fd, r2) := takeDigits r; if fd = [] then none else some ('.' :: fd, r2)
      | r => some ([], r)
    match fracPart with
    | none => none
    | some (fp, cs3) =>
      let expPart : Option (List Char × List Char) := match cs3 with
        | e :: r =>
          if e = 'e' ∨ e = 'E' then
            let (sign, r1) := match r with
              | '+' :: q => (['+'], q)
              | '-' :: q => (['-'], q)
              | q => ([], q)
            let (ed, r2) := takeDigits r1
            if ed = [] then none else some (e :: sign ++ ed, r2)
          else some ([], e :: r)
        | [] => some ([], [])
      match expPart with
      | none => none
      | some (ep, cs4) =>
        if fp = [] ∧ ep = [] then
          some (.int (if neg then -(digitsValue ip : Int) else (digitsValue ip : Int)), cs4)
        else some (.real (String.mk ((if neg then ['-'] else []) ++ ip ++ fp ++ ep)), cs4)

/-- What follows the given characters, when the input starts with them. -/
def stripPrefix (p : List Char) (cs : List Char) : Option (List Char) :=
  if p.isPrefixOf cs then some (cs.drop p.length) else none

mutual
/-- One JSON value and what follows it; `fuel` bounds the nesting and the
number of elements, and the length of the input is always enough. -/
def scanValue : Nat → List Char → Option (Json × List Char)
  | 0, _ => none
  | fuel + 1, cs =>
    match skipSpace cs with
    | '{' :: rest =>
      match skipSpace rest with
      | '}' :: rest2 => some (.obj [], rest2)
      | rest2 => scanMembers fuel rest2 []
    | '[' :: rest =>
      match skipSpace rest with
      | ']' :: rest2 => some (.arr [], rest2)
      | rest2 => scanElems fuel rest2 []
    | '"' :: rest => (scanString rest []).map fun r => (.str r.1, r.2)
    | 't' :: rest => (stripPrefix ['r', 'u', 'e'] rest).map fun r => (.bool true, r)
    | 'f' :: rest => (stripPrefix ['a', 'l', 's', 'e'] rest).map fun r => (.bool false, r)
    | 'n' :: rest => (stripPrefix ['u', 'l', 'l'] rest).map fun r => (.null, r)
    | rest => scanNumber rest
/-- The elements of an array after the first bracket. -/
def scanElems : Nat → List Char → List Json → Option (Json × List Char)
  | 0, _, _ => none
  | fuel + 1, cs, acc =>
    match scanValue fuel cs with
    | none => none
    | some (v, rest) =>
      match skipSpace rest with
      | ',' :: rest2 => scanElems fuel rest2 (v :: acc)
      | ']' :: rest2 => some (.arr (v :: acc).reverse, rest2)
      | _ => none
/-- The members of an object after the first brace. -/
def scanMembers : Nat → List Char → List (String × Json) → Option (Json × List Char)
  | 0, _, _ => none
  | fuel + 1, cs, acc =>
    match skipSpace cs with
    | '"' :: rest =>
      match scanString rest [] with
      | none => none
      | some (k, rest1) =>
        match skipSpace rest1 with
        | ':' :: rest2 =>
          match scanValue fuel rest2 with
          | none => none
          | some (v, rest3) =>
            match skipSpace rest3 with
            | ',' :: rest4 => scanMembers fuel rest4 ((k, v) :: acc)
            | '}' :: rest4 => some (.obj ((k, v) :: acc).reverse, rest4)
            | _ => none
        | _ => none
    | _ => none
end

/-- A reference JSON scanner after RFC 8259: the value a text denotes, or an
error.  (The nesting limit of `encoding/json` is not modelled.) -/
def scanJSON (data : String) : Except String Json :=
  match scanValue (data.length + 1) data.data with
  | none => .error "invalid JSON"
  | some (v, rest) =>
    match skipSpace rest with
    | [] => .ok v
    | _ => .error "invalid character after top-level value"

/-- A stand-in for `url.Parse`: it refuses ASCII control characters, as
`url.Parse` does, and splits off the fragment at the first `#` and the query at
the first `?`; it neither validates nor normalises the rest. -/
def simpleParse (rawURL : String) : Except GoError URL :=
  if rawURL.data.any (fun c => c.toNat < 32 || c.toNat == 127) then
    .error (.lib "net/url: invalid control character in URL")
  else
    let beforeFrag := rawURL.data.takeWhile (fun c => c != '#')
    let frag := rawURL.data.dropWhile (fun c => c != '#')
    let head := beforeFrag.takeWhile (fun c => c != '?')
    let query := (beforeFrag.dropWhile (fun c => c != '?')).drop 1
    .ok { head := String.mk head, ForceQuery := false, RawQuery := String.mk query,
          tail := String.mk frag }

/-- A transport that answers every request with the same response. -/
def mockTransport (resp : Response) : HttpClient := fun _ => (some resp, none)

/-- A transport that fails on every request: no response, and an error. -/
def failingTransport (err : GoError) : HttpClient := fun _ => (none, some err)

/-- The reference library with the given default transport. -/
def refLib (transport : HttpClient) : Lib := ⟨simpleParse, scanJSON, transport⟩

/-- A client made by `NewClient` over the reference library. -/
def exampleClient (transport : HttpClient) : Client :=
  NewClient (refLib transport) "user" "secret" "app-key"

/-! ## Vocabulary of the statements -/

/-- The client builds the request of an operation and the transport answers
it with `resp` and no error. -/
def Answers (lib : Lib) (pc : Client) (method rsc : String) (params : Option GoMap)
    (resp : Response) : Prop :=
  ∃ req, NewRequest lib pc method rsc params = .returned (some req, none)
    ∧ pc.client req = (some resp, none)

/-- The client builds the request of an operation and the transport fails on
it: `Do` returns no response and the error `err`. -/
def TransportFails (lib : Lib) (pc : Client) (method rsc : String) (params : Option GoMap)
    (err : GoError) : Prop :=
  ∃ req, NewRequest lib pc method rsc params = .returned (some req, none)
    ∧ pc.client req = (none, some err)

/-- Order of parameter pairs by key. -/
def pairLE (a b : String × String) : Prop := keyLE a.1 b.1

instance pairLE.decidable : DecidableRel pairLE := fun a b =>
  inferInstanceAs (Decidable (keyLE a.1 b.1))

/-- One `key=value` pair of an encoded query. -/
def pairString (kv : String × String) : String :=
  QueryEscape kv.1 ++ "=" ++ QueryEscape kv.2

/-- Characters that `QueryEscape` can produce: ASCII letters and digits, the
unreserved signs `-`, `_`, `.`, `~`, and `+` and `%` of the escapes. -/
def isEscapedChar (c : Char) : Bool :=
  c.isAlphanum || c == '-' || c == '_' || c == '.' || c == '~' || c == '+' || c == '%'

/-- The error envelope `{"error":{"statuscode":c,"statusdesc":d,"errormessage":m}}`. -/
def errorEnvelope (c : Int) (d m : String) : Json :=
  .obj [("error", .obj [("statuscode", .int c), ("statusdesc", .str d), ("errormessage", .str m)])]

/-- The members a JSON object can state about a check: each field under its
JSON name, with the value of its type. -/
def Check.members (c : Check) : List (String × Json) :=
  [("id", .int c.ID), ("name", .str c.Name), ("resolution", .int c.Resolution),
   ("sendtoemail", .bool c.SendToEmail), ("sendtotwitter", .bool c.SendToTwitter),
   ("sendtoiphone", .bool c.SendToIPhone),
   ("sendnotificationwhendown", .int c.SendNotificationWhenDown),
   ("notifyagainevery", .int c.NotifyAgainEvery), ("notifywhenbackup", .bool c.NotifyWhenBackup),
   ("created", .int c.Created), ("hostname", .str c.Hostname), ("status", .str c.Status),
   ("lasterrortime", .int c.LastErrorTime), ("lasttesttime", .int c.LastTestTime),
   ("lastresponsetime", .int c.LastResponseTime)]

/-- The zero values `0`, `""` and `false`. -/
def isZeroValue : Json → Bool
  | .int n => n == 0
  | .str s => s == ""
  | .bool b => !b
  | _ => false

/-- Every integer field of the check is in the range of its Go type. -/
def Check.Fits (c : Check) : Prop :=
  fitsInt64 c.ID ∧ fitsInt64 c.Resolution ∧ fitsInt64 c.SendNotificationWhenDown
    ∧ fitsInt64 c.NotifyAgainEvery ∧ fitsInt64 c.Created ∧ fitsInt64 c.LastErrorTime
    ∧ fitsInt64 c.LastTestTime ∧ fitsInt64 c.LastResponseTime

instance Check.Fits.decidable (c : Check) : Decidable c.Fits :=
  inferInstanceAs (Decidable (_ ∧ _))

/-- The JSON value `o` is a well-formed object for the check `c`: an object
whose members are fields of `c` under their JSON names, in any order, and every
field of `c` it leaves out is zero. -/
def DescribesCheck (o : Json) (c : Check) : Prop :=
  ∃ ms, o = .obj ms ∧ (∀ kv ∈ ms, kv ∈ c.members)
    ∧ ∀ kv ∈ c.members, kv ∉ ms → isZeroValue kv.2 = true

/-! ## Examples and the decoding invariant -/

/-- The response of the example in the specification: status 404 and the
error envelope of a missing check. -/
def notFoundResponse : Response :=
  ⟨404, "\x7b\"error\":\x7b\"statuscode\":404,\"statusdesc\":\"Not Found\",\"errormessage\":\"no such check\"\x7d\x7d"⟩

/-- While the members of a well-formed object for `c` are decoded, every field
of the check decoded so far either has the value it has in `c`, or is still
zero and its member has not been seen. -/
def Agree (seen : List (String × Json)) (acc c : Check) : Prop :=
  (acc.ID = c.ID ∨ (acc.ID = 0 ∧ ("id", Json.int c.ID) ∉ seen))
  ∧ (acc.Name = c.Name ∨ (acc.Name = "" ∧ ("name", Json.str c.Name) ∉ seen))
  ∧ (acc.Resolution = c.Resolution ∨ (acc.Resolution = 0 ∧ ("resolution", Json.int c.Resolution) ∉ seen))
  ∧ (acc.SendToEmail = c.SendToEmail ∨ (acc.SendToEmail = false ∧ ("sendtoemail", Json.bool c.SendToEmail) ∉ seen))
  ∧ (acc.SendToTwitter = c.SendToTwitter ∨ (acc.SendToTwitter = false ∧ ("sendtotwitter", Json.bool c.SendToTwitter) ∉ seen))
  ∧ (acc.SendToIPhone = c.SendToIPhone ∨ (acc.SendToIPhone = false ∧ ("sendtoiphone", Json.bool c.SendToIPhone) ∉ seen))
  ∧ (acc.SendNotificationWhenDown = c.SendNotificationWhenDown ∨ (acc.SendNotificationWhenDown = 0 ∧ ("sendnotificationwhendown", Json.int c.SendNotificationWhenDown) ∉ seen))
  ∧ (acc.NotifyAgainEvery = c.NotifyAgainEvery ∨ (acc.NotifyAgainEvery = 0 ∧ ("notifyagainevery", Json.int c.NotifyAgainEvery) ∉ seen))
  ∧ (acc.NotifyWhenBackup = c.NotifyWhenBackup ∨ (acc.NotifyWhenBackup = false ∧ ("notifywhenbackup", Json.bool c.NotifyWhenBackup) ∉ seen))
  ∧ (acc.Created = c.Created ∨ (acc.Created = 0 ∧ ("created", Json.int c.Created) ∉ seen))
  ∧ (acc.Hostname = c.Hostname ∨ (acc.Hostname = "" ∧ ("hostname", Json.str c.Hostname) ∉ seen))
  ∧ (acc.Status = c.Status ∨ (acc.Status = "" ∧ ("status", Json.str c.Status) ∉ seen))
  ∧ (acc.LastErrorTime = c.LastErrorTime ∨ (acc.LastErrorTime = 0 ∧ ("lasterrortime", Json.int c.LastErrorTime) ∉ seen))
  ∧ (acc.LastTestTime = c.LastTestTime ∨ (acc.LastTestTime = 0 ∧ ("lasttesttime", Json.int c.LastTestTime) ∉ seen))
  ∧ (acc.LastResponseTime = c.LastResponseTime ∨ (acc.LastResponseTime = 0 ∧ ("lastresponsetime", Json.int c.LastResponseTime) ∉ seen))

/-- The response of the example in the specification: status 200 and a list
of one check. -/
def oneCheckResponse : Response :=
  ⟨200, "\x7b\"checks\":[\x7b\"id\":1,\"name\":\"a\",\"hostname\":\"a.com\"\x7d]\x7d"⟩

/-- The check of the example: id 1, name `a`, hostname `a.com`, all else zero. -/
def oneCheck : Check := { Check.zero with ID := 1, Name := "a", Hostname := "a.com" }

end Pingdom

/-! # Theorems -/

namespace Pingdom

/-! ### The order of keys -/

theorem leChars_total (a b : List Char) : leChars a b = true ∨ leChars b a = true := by
  induction a generalizing b with
  | nil => simp [leChars]
  | cons x s ih =>
    cases b with
    | nil => simp [leChars]
    | cons y t =>
      simp only [leChars]
      rcases Nat.lt_trichotomy x.toNat y.toNat with h | h | h
      · simp [h]
      · simp [h]; exact ih t
      · right; simp [h]

theorem leChars_trans (a b c : List Char) (h₁ : leChars a b = true) (h₂ : leChars b c = true) :
    leChars a c = true := by
  induction a generalizing b c with
  | nil => simp [leChars]
  | cons x s ih =>
    cases b with
    | nil => simp [leChars] at h₁
    | cons y t =>
      cases c with
      | nil => simp [leChars] at h₂
      | cons z u =>
        simp only [leChars] at h₁ h₂ ⊢
        split_ifs at h₁ h₂ ⊢ <;> first | rfl | omega | exact ih t u h₁ h₂

theorem leChars_antisymm (a b : List Char) (h₁ : leChars a b = true) (h₂ : leChars b a = true) :
    a = b := by
  induction a generalizing b with
  | nil => cases b with
    | nil => rfl
    | cons y t => simp [leChars] at h₂
  | cons x s ih =>
    cases b with
    | nil => simp [leChars] at h₁
    | cons y t =>
      simp only [leChars] at h₁ h₂
      split_ifs at h₁ h₂ <;> try omega
      have hxy : x = y := Char.ext (UInt32.ext (by simp [Char.toNat, UInt32.toNat] at *; omega))
      rw [hxy, ih t h₁ h₂]

theorem keyLE_isTotal : IsTotal String keyLE := ⟨fun a b => leChars_total a.data b.data⟩
theorem keyLE_isTrans : IsTrans String keyLE := ⟨fun a b c => leChars_trans a.data b.data c.data⟩
theorem keyLE_isAntisymm : IsAntisymm String keyLE :=
  ⟨fun a b h₁ h₂ => String.ext (leChars_antisymm a.data b.data h₁ h₂)⟩

/-! ### The query string of a parameter map -/

theorem pairLE_isTotal : IsTotal (String × String) pairLE :=
  ⟨fun a b => leChars_total a.1.data b.1.data⟩

theorem pairLE_isTrans : IsTrans (String × String) pairLE :=
  ⟨fun a b c => leChars_trans a.1.data b.1.data c.1.data⟩

theorem filter_ne_key_eq_self {β : Type} (a : String) (acc : List (String × β))
    (h : a ∉ acc.map Prod.fst) : (acc.filter fun e => e.1 != a) = acc := by
  rw [List.filter_eq_self]
  intro e he
  have : e.1 ≠ a := fun hc => h (hc ▸ List.mem_map_of_mem Prod.fst he)
  simpa using this

theorem foldl_Set_eq (ps : GoMap) (acc : Values) (hnd : (ps.map Prod.fst).Nodup)
    (hdis : ∀ k ∈ ps.map Prod.fst, k ∉ acc.map Prod.fst) :
    ps.foldl (fun v kv => Values.Set v kv.1 kv.2) acc
      = (ps.map fun kv => (kv.1, [kv.2])).reverse ++ acc := by
  induction ps generalizing acc with
  | nil => simp
  | cons p t ih =>
    simp only [List.map_cons, List.nodup_cons] at hnd
    simp only [List.foldl_cons, List.map_cons, List.reverse_cons, List.append_assoc,
      List.singleton_append]
    have hp : p.1 ∉ acc.map Prod.fst := hdis p.1 (by simp)
    rw [ih _ hnd.2]
    · simp [Values.Set, filter_ne_key_eq_self p.1 acc hp]
    · intro k hk
      simp only [Values.Set, filter_ne_key_eq_self p.1 acc hp, List.map_cons, List.mem_cons, not_or]
      refine ⟨fun hc => hnd.1 (hc ▸ hk), hdis k (by simp [List.mem_map] at hk ⊢; exact Or.inr hk)⟩

theorem paramValues_eq (ps : GoMap) (hwf : GoMap.WF ps) :
    paramValues ps = (ps.map fun kv => (kv.1, [kv.2])).reverse := by
  have := foldl_Set_eq ps [] hwf (by simp)
  simpa [paramValues] using this

theorem lookup_of_mem {β : Type} (l : List (String × β)) (hnd : (l.map Prod.fst).Nodup)
    (k : String) (y : β) (h : (k, y) ∈ l) : List.lookup k l = some y := by
  induction l with
  | nil => simp at h
  | cons p t ih =>
    obtain ⟨a, x⟩ := p
    simp only [List.map_cons, List.nodup_cons] at hnd
    simp only [List.mem_cons, Prod.mk.injEq] at h
    rcases h with ⟨rfl, rfl⟩ | h
    · simp [List.lookup]
    · have hne : k ≠ a := fun hc => hnd.1 (hc ▸ List.mem_map_of_mem Prod.fst h)
      simp only [List.lookup]
      rw [beq_false_of_ne hne]
      exact ih hnd.2 h

theorem paramValues_lookup (ps : GoMap) (hwf : GoMap.WF ps) (k x : String) (h : (k, x) ∈ ps) :
    List.lookup k (paramValues ps) = some [x] := by
  rw [paramValues_eq ps hwf]
  apply lookup_of_mem
  · have : (List.map Prod.fst (List.map (fun kv : String × String => (kv.1, [kv.2])) ps).reverse)
        = (ps.map Prod.fst).reverse := by
      simp [List.map_reverse, Function.comp_def]
    rw [this]
    exact List.nodup_reverse.mpr hwf
  · simp only [List.mem_reverse, List.mem_map]
    exact ⟨(k, x), h, rfl⟩

theorem paramValues_keys (ps : GoMap) (hwf : GoMap.WF ps) :
    ((paramValues ps).map Prod.fst).Perm (ps.map Prod.fst) := by
  rw [paramValues_eq ps hwf]
  have : (List.map Prod.fst (List.map (fun kv : String × String => (kv.1, [kv.2])) ps).reverse)
      = (ps.map Prod.fst).reverse := by
    simp [List.map_reverse, Function.comp_def]
  rw [this]
  exact List.reverse_perm _

theorem sorted_keys_eq (ps : GoMap) (hwf : GoMap.WF ps) :
    List.insertionSort keyLE ((paramValues ps).map Prod.fst)
      = (List.insertionSort pairLE ps).map Prod.fst := by
  haveI := keyLE_isTotal
  haveI := keyLE_isTrans
  haveI := keyLE_isAntisymm
  haveI := pairLE_isTotal
  haveI := pairLE_isTrans
  apply List.eq_of_perm_of_sorted (r := keyLE)
  · exact (List.perm_insertionSort keyLE _).trans
      ((paramValues_keys ps hwf).trans ((List.perm_insertionSort pairLE ps).map Prod.fst).symm)
  · exact List.sorted_insertionSort keyLE _
  · have := List.sorted_insertionSort pairLE ps
    exact List.pairwise_map.mpr this

theorem encodeLoop_pairs (v : Values) (pairs : List (String × String)) (buf : String)
    (h : ∀ kv ∈ pairs, List.lookup kv.1 v = some [kv.2]) :
    Values.encodeLoop v (pairs.map Prod.fst) buf
      = pairs.foldl (fun b kv => Values.writePair (QueryEscape kv.1) b kv.2) buf := by
  induction pairs generalizing buf with
  | nil => rfl
  | cons p t ih =>
    simp only [List.map_cons, Values.encodeLoop, List.foldl_cons]
    rw [h p (by simp)]
    simp only [Option.getD_some, List.foldl_cons, List.foldl_nil]
    exact ih _ (fun kv hkv => h kv (List.mem_cons_of_mem _ hkv))

theorem writePair_nonempty (k buf v : String) : (Values.writePair k buf v).length > 0 := by
  simp only [Values.writePair, String.length_append]
  have : "=".length = 1 := rfl
  omega

theorem writePair_of_nonempty (kv : String × String) (buf : String) (h : buf.length > 0) :
    Values.writePair (QueryEscape kv.1) buf kv.2 = buf ++ "&" ++ pairString kv := by
  simp only [Values.writePair, if_pos h, pairString]
  apply String.ext
  simp [String.data_append, String.push]

theorem writePair_empty (kv : String × String) :
    Values.writePair (QueryEscape kv.1) "" kv.2 = pairString kv := by
  have h : ¬ ("".length > 0) := by decide
  simp only [Values.writePair, if_neg h, pairString]
  apply String.ext
  simp [String.data_append]

theorem foldl_writePair_go (pairs : List (String × String)) (buf : String) (h : buf.length > 0) :
    pairs.foldl (fun b kv => Values.writePair (QueryEscape kv.1) b kv.2) buf
      = String.intercalate.go buf "&" (pairs.map pairString) := by
  induction pairs generalizing buf with
  | nil => rfl
  | cons p t ih =>
    simp only [List.foldl_cons, List.map_cons, String.intercalate.go]
    rw [writePair_of_nonempty p buf h]
    apply ih
    simp only [String.length_append]
    omega

theorem foldl_writePair_intercalate (pairs : List (String × String)) :
    pairs.foldl (fun b kv => Values.writePair (QueryEscape kv.1) b kv.2) ""
      = "&".intercalate (pairs.map pairString) := by
  cases pairs with
  | nil => rfl
  | cons p t =>
    simp only [List.foldl_cons, List.map_cons, String.intercalate]
    rw [← writePair_empty p]
    exact foldl_writePair_go t _ (writePair_nonempty _ _ _)

theorem Encode_paramValues (ps : GoMap) (hwf : GoMap.WF ps) :
    (paramValues ps).Encode
      = "&".intercalate ((List.insertionSort pairLE ps).map pairString) := by
  unfold Values.Encode
  by_cases h0 : (paramValues ps).length = 0
  · rw [if_pos h0]
    have : ps = [] := by
      rw [paramValues_eq ps hwf] at h0
      simpa using h0
    subst this
    rfl
  · rw [if_neg h0, sorted_keys_eq ps hwf, encodeLoop_pairs, foldl_writePair_intercalate]
    intro kv hkv
    exact paramValues_lookup ps hwf kv.1 kv.2 ((List.perm_insertionSort pairLE ps).mem_iff.mp hkv)

theorem sortedPairs_perm_eq (ps ps' : GoMap) (hwf : GoMap.WF ps) (hperm : ps.Perm ps') :
    List.insertionSort pairLE ps = List.insertionSort pairLE ps' := by
  let r : String × String → String × String → Prop := fun a b => pairLE a b ∧ a.1 ≠ b.1
  have hanti : IsAntisymm (String × String) r :=
    ⟨fun a b h₁ h₂ => absurd (keyLE_isAntisymm.antisymm a.1 b.1 h₁.1 h₂.1) h₁.2⟩
  have hsorted : ∀ l : GoMap, GoMap.WF l → List.Sorted r (List.insertionSort pairLE l) := by
    intro l hl
    haveI := pairLE_isTotal
    haveI := pairLE_isTrans
    have h1 : List.Pairwise pairLE (List.insertionSort pairLE l) := List.sorted_insertionSort pairLE l
    have h2 : List.Pairwise (fun a b : String × String => a.1 ≠ b.1) (List.insertionSort pairLE l) := by
      have : ((List.insertionSort pairLE l).map Prod.fst).Nodup :=
        ((List.perm_insertionSort pairLE l).map Prod.fst).nodup_iff.mpr hl
      exact List.pairwise_map.mp this
    exact h1.and h2
  have hwf' : GoMap.WF ps' := (hperm.map Prod.fst).nodup_iff.mp hwf
  exact @List.eq_of_perm_of_sorted _ r hanti _ _
    ((List.perm_insertionSort pairLE ps).trans (hperm.trans (List.perm_insertionSort pairLE ps').symm))
    (hsorted ps hwf) (hsorted ps' hwf')

set_option maxRecDepth 1000000 in
theorem escapeByte_chars : ∀ n, n < 256 → ∀ c ∈ escapeByte n, isEscapedChar c = true := by
  decide

theorem QueryEscape_chars (s : String) : ∀ c ∈ (QueryEscape s).data, isEscapedChar c = true := by
  intro c hc
  simp only [QueryEscape, List.mem_flatMap, bytesOf, List.mem_map] at hc
  obtain ⟨n, ⟨b, _, rfl⟩, hcn⟩ := hc
  exact escapeByte_chars b.toNat b.val.isLt c hcn

/-! ### The parameter maps of create and update -/

theorem lookup_cons_ite (k a x : String) (l : List (String × String)) :
    List.lookup k ((a, x) :: l) = if k = a then some x else List.lookup k l := by
  by_cases h : k = a
  · subst h; simp [List.lookup]
  · rw [if_neg h]; simp only [List.lookup]; rw [beq_false_of_ne h]

theorem lookup_three (k a b c : String) (x y z : String) :
    List.lookup k [(a, x), (b, y), (c, z)] =
      if k = a then some x else if k = b then some y else if k = c then some z else none := by
  rw [lookup_cons_ite, lookup_cons_ite, lookup_cons_ite]; rfl

theorem updateParams_eq (ck : Check) :
    updateParams ck = [("name", ck.Name), ("host", ck.Hostname)] := by
  simp [updateParams, GoMap.delete, Check.Params]

theorem Encode_paramValues_ne_empty (ps : GoMap) (hwf : GoMap.WF ps) (hne : ps ≠ []) :
    (paramValues ps).Encode ≠ "" := by
  rw [Encode_paramValues ps hwf, ← foldl_writePair_intercalate]
  have hs : List.insertionSort pairLE ps ≠ [] := by
    intro h
    have := (List.perm_insertionSort pairLE ps).length_eq
    rw [h] at this
    exact hne (List.length_eq_zero.mp this.symm)
  rcases List.eq_nil_or_concat (List.insertionSort pairLE ps) with h | ⟨l, x, h⟩
  · exact absurd h hs
  · rw [h, List.concat_eq_append, List.foldl_append]
    simp only [List.foldl_cons, List.foldl_nil]
    intro hc
    have := writePair_nonempty (QueryEscape x.1)
      (List.foldl (fun b kv => Values.writePair (QueryEscape kv.1) b kv.2) "" l) x.2
    rw [hc] at this
    exact absurd this (by decide)

/-- The request `NewRequest` returns once `http.NewRequest` has accepted
method and URL: basic authentication and the `App-Key` header are added. -/
theorem NewRequest_some_eq (lib : Lib) (pc : Client) (method rsc : String) (ps : GoMap)
    (base u u' : URL) (hbase : pc.BaseURL = some base)
    (hparse : lib.urlParse (base.String ++ rsc) = .ok u) (hm : validMethod method = true)
    (hurl : lib.urlParse (u.head
        ++ (if u.ForceQuery || (paramValues ps).Encode != "" then "?" ++ (paramValues ps).Encode
            else "")
        ++ u.tail) = .ok u') :
    NewRequest lib pc method rsc (some ps) = .returned (some
      { Method := method, URL := u',
        Header := Values.Add (Values.Set [] "Authorization"
          ("Basic " ++ String.mk (base64 (bytesOf (pc.User ++ ":" ++ pc.Password)))))
          "App-Key" pc.APIKey }, none) := by
  have hne : method ≠ "" := by
    intro h
    rw [h] at hm
    exact absurd hm (by decide)
  simp only [NewRequest, hbase, hparse]
  simp only [httpNewRequest, if_neg hne, hm, URL.String, hurl, Request.SetBasicAuth,
    Bool.not_true, Bool.false_eq_true, if_false]

/-- C6: for a non-nil parameter map (entries `ps`, keys pairwise distinct) the
query string that `NewRequest` puts on the URL is the `key=value` pairs in
ascending order of key, joined by `&`, with key and value passed through
`QueryEscape` (whose output holds only unreserved characters, `+` and `%`); the
string, and the whole result of `NewRequest`, is the same for every order
`ps'` in which the entries of the map may be visited.  The string is on the
request: the URL `NewRequest` hands to `http.NewRequest` is the parsed base URL
and path with `?` and this string in the place of the query (the string is
not empty unless the map is), and the request returned for a valid method
carries the URL parsed from that text, under the given method. -/
theorem NewRequest_query_sorted_escaped (ps ps' : GoMap) (hwf : GoMap.WF ps)
    (hperm : ps.Perm ps') :
    (∃ sorted : List (String × String), sorted.Perm ps ∧ sorted.Sorted pairLE
        ∧ (paramValues ps).Encode = "&".intercalate (sorted.map pairString))
    ∧ (∀ s, ∀ c ∈ (QueryEscape s).data, isEscapedChar c = true)
    ∧ (paramValues ps').Encode = (paramValues ps).Encode
    ∧ (∀ (lib : Lib) (pc : Client) (method rsc : String),
        NewRequest lib pc method rsc (some ps') = NewRequest lib pc method rsc (some ps))
    ∧ (ps ≠ [] → (paramValues ps).Encode ≠ "")
    ∧ (∀ (lib : Lib) (pc : Client) (method rsc : String) (base u u' : URL),
        pc.BaseURL = some base → lib.urlParse (base.String ++ rsc) = .ok u →
        validMethod method = true →
        lib.urlParse (u.head
          ++ (if u.ForceQuery || (paramValues ps).Encode != "" then
                "?" ++ (paramValues ps).Encode
              else "")
          ++ u.tail) = .ok u' →
        ∃ req, NewRequest lib pc method rsc (some ps) = .returned (some req, none)
          ∧ req.Method = method ∧ req.URL = u')
    ∧ (∀ (lib : Lib) (pc : Client) (method rsc : String) (base u : URL) (err : GoError),
        pc.BaseURL = some base → lib.urlParse (base.String ++ rsc) = .ok u →
        lib.urlParse (u.head
          ++ (if u.ForceQuery || (paramValues ps).Encode != "" then
                "?" ++ (paramValues ps).Encode
              else "")
          ++ u.tail) = .error err →
        NewRequest lib pc method rsc (some ps) = .panicked) := by
  have hwf' : GoMap.WF ps' := (hperm.map Prod.fst).nodup_iff.mp hwf
  have henc : (paramValues ps').Encode = (paramValues ps).Encode := by
    rw [Encode_paramValues ps hwf, Encode_paramValues ps' hwf', sortedPairs_perm_eq ps ps' hwf hperm]
  refine ⟨⟨List.insertionSort pairLE ps, List.perm_insertionSort pairLE ps, ?_,
    Encode_paramValues ps hwf⟩, QueryEscape_chars, henc, ?_,
    Encode_paramValues_ne_empty ps hwf, ?_, ?_⟩
  · haveI := pairLE_isTotal
    haveI := pairLE_isTrans
    exact List.sorted_insertionSort pairLE ps
  · intro lib pc method rsc
    simp only [NewRequest, henc]
  · intro lib pc method rsc base u u' hbase hparse hm hurl
    exact ⟨_, NewRequest_some_eq lib pc method rsc ps base u u' hbase hparse hm hurl, rfl, rfl⟩
  · intro lib pc method rsc base u err hbase hparse hurl
    simp only [NewRequest, hbase, hparse]
    simp only [httpNewRequest, URL.String, hurl]
    split_ifs <;> rfl

/-- Witness of C6: the three parameters of a create request, visited in two
different orders, give the query `host=a.com&name=my+check&type=http`, and the
request a client made by `NewClient` builds from them carries it. -/
theorem NewRequest_query_sorted_escaped_witness :
    GoMap.WF [("name", "my check"), ("host", "a.com"), ("type", "http")]
    ∧ (paramValues [("type", "http"), ("name", "my check"), ("host", "a.com")]).Encode
        = (paramValues [("name", "my check"), ("host", "a.com"), ("type", "http")]).Encode
    ∧ (paramValues [("name", "my check"), ("host", "a.com"), ("type", "http")]).Encode
        = "host=a.com&name=my+check&type=http"
    ∧ ∃ req, NewRequest (refLib (mockTransport ⟨200, ""⟩)) (exampleClient (mockTransport ⟨200, ""⟩))
          "POST" "/api/2.0/checks" (some [("name", "my check"), ("host", "a.com"), ("type", "http")])
          = .returned (some req, none)
        ∧ req.Method = "POST"
        ∧ req.URL = ⟨"https://api.pingdom.com//api/2.0/checks", false,
            "host=a.com&name=my+check&type=http", ""⟩ :=
  have h := NewRequest_query_sorted_escaped [("name", "my check"), ("host", "a.com"), ("type", "http")]
      [("type", "http"), ("name", "my check"), ("host", "a.com")] (by decide) (by decide)
  ⟨by decide, h.2.2.1, by decide,
   h.2.2.2.2.2.1 (refLib (mockTransport ⟨200, ""⟩)) (exampleClient (mockTransport ⟨200, ""⟩))
     "POST" "/api/2.0/checks" ⟨"https://api.pingdom.com/", false, "", ""⟩
     ⟨"https://api.pingdom.com//api/2.0/checks", false, "", ""⟩
     ⟨"https://api.pingdom.com//api/2.0/checks", false, "host=a.com&name=my+check&type=http", ""⟩
     (by rfl) (by rfl) (by decide) (by rfl)⟩

theorem sort_Params (n h : String) :
    List.insertionSort pairLE [("name", n), ("host", h), ("type", "http")]
      = [("host", h), ("name", n), ("type", "http")] := by
  have h1 : pairLE ("host", h) ("type", "http") := (by decide : keyLE "host" "type")
  have h2 : pairLE ("name", n) ("type", "http") := (by decide : keyLE "name" "type")
  have h3 : ¬ pairLE ("name", n) ("host", h) := (by decide : ¬ keyLE "name" "host")
  have h4 : pairLE ("host", h) ("name", n) := (by decide : keyLE "host" "name")
  simp [List.insertionSort, List.orderedInsert, h1, h2, h3, h4]

theorem sort_updateParams (n h : String) :
    List.insertionSort pairLE [("name", n), ("host", h)] = [("host", h), ("name", n)] := by
  have h3 : ¬ pairLE ("name", n) ("host", h) := (by decide : ¬ keyLE "name" "host")
  simp [List.insertionSort, List.orderedInsert, h3]

theorem Encode_Params (ck : Check) :
    (paramValues ck.Params).Encode
      = "host=" ++ QueryEscape ck.Hostname ++ "&name=" ++ QueryEscape ck.Name ++ "&type=http" := by
  rw [Encode_paramValues _ (by simp [GoMap.WF, Check.Params])]
  simp only [Check.Params, sort_Params, List.map, String.intercalate, String.intercalate.go, pairString]
  have e1 : QueryEscape "host" = "host" := by decide
  have e2 : QueryEscape "name" = "name" := by decide
  have e3 : QueryEscape "type" = "type" := by decide
  have e4 : QueryEscape "http" = "http" := by decide
  rw [e1, e2, e3, e4]
  apply String.ext
  simp [String.data_append]

theorem Encode_updateParams (ck : Check) :
    (paramValues (updateParams ck)).Encode
      = "host=" ++ QueryEscape ck.Hostname ++ "&name=" ++ QueryEscape ck.Name := by
  rw [updateParams_eq, Encode_paramValues _ (by simp [GoMap.WF])]
  simp only [sort_updateParams, List.map, String.intercalate, String.intercalate.go, pairString]
  have e1 : QueryEscape "host" = "host" := by decide
  have e2 : QueryEscape "name" = "name" := by decide
  rw [e1, e2]
  apply String.ext
  simp [String.data_append]

/-- C4: for every check, `Params()`, the map `CreateCheck` hands to
`NewRequest`, has exactly the three keys `name` (the check's name), `host` (its
hostname) and `type` (`"http"`); a check with the same name and hostname gives
the same map and the same `CreateCheck`, whatever its other fields; and the
query string sent is `host=..&name=..&type=http`. -/
theorem Check_Params_exact (ck : Check) :
    (∀ k, ck.Params.get? k =
      if k = "name" then some ck.Name
      else if k = "host" then some ck.Hostname
      else if k = "type" then some "http"
      else none)
    ∧ GoMap.WF ck.Params ∧ ck.Params.length = 3
    ∧ (∀ ck' : Check, ck'.Name = ck.Name → ck'.Hostname = ck.Hostname → ck'.Params = ck.Params)
    ∧ (∀ (lib : Lib) (pc : Client) (ck' : Check), ck'.Name = ck.Name → ck'.Hostname = ck.Hostname →
        CreateCheck lib pc ck' = CreateCheck lib pc ck)
    ∧ (paramValues ck.Params).Encode
        = "host=" ++ QueryEscape ck.Hostname ++ "&name=" ++ QueryEscape ck.Name ++ "&type=http" := by
  refine ⟨?_, ?_, rfl, ?_, ?_, Encode_Params ck⟩
  · intro k
    exact lookup_three k _ _ _ _ _ _
  · simp [GoMap.WF, Check.Params]
  · intro ck' h1 h2; simp [Check.Params, h1, h2]
  · intro lib pc ck' h1 h2
    have : ck'.Params = ck.Params := by simp [Check.Params, h1, h2]
    simp [CreateCheck, this]

/-- C5: for every id and check, the map `UpdateCheck` hands to `NewRequest`
has exactly the two keys `name` (the check's name) and `host` (its hostname);
`type` is not a key; the map is the map of `CreateCheck` without `type`; and
the query string sent is `host=..&name=..`. -/
theorem UpdateCheck_params (ck : Check) :
    (∀ k, (updateParams ck).get? k =
      if k = "name" then some ck.Name
      else if k = "host" then some ck.Hostname
      else none)
    ∧ GoMap.WF (updateParams ck) ∧ (updateParams ck).length = 2
    ∧ (updateParams ck).get? "type" = none
    ∧ (∀ k, (updateParams ck).get? k = if k = "type" then none else ck.Params.get? k)
    ∧ (∀ (lib : Lib) (pc : Client) (id : Int), UpdateCheck lib pc id ck =
        match NewRequest lib pc "PUT" ("/api/2.0/checks/" ++ Itoa id)
            (some [("name", ck.Name), ("host", ck.Hostname)]) with
        | .returned (some req, none) =>
          (match pc.client req with
            | (none, _) => .panicked
            | (some _, some err) => .returned (none, some err)
            | (some resp, none) =>
              match ValidateResponse lib resp with
              | .panicked => .panicked
              | .returned (some err) => .returned (none, some err)
              | .returned none => .returned (Unmarshal lib decodePingdomResponse resp.Body ⟨""⟩))
        | .returned (_, some err) => .returned (none, some err)
        | _ => .panicked)
    ∧ (paramValues (updateParams ck)).Encode
        = "host=" ++ QueryEscape ck.Hostname ++ "&name=" ++ QueryEscape ck.Name := by
  have h := updateParams_eq ck
  have hl : ∀ k, (updateParams ck).get? k =
      if k = "name" then some ck.Name else if k = "host" then some ck.Hostname else none := by
    intro k
    rw [h]
    simp only [GoMap.get?]
    rw [lookup_cons_ite, lookup_cons_ite]; rfl
  refine ⟨hl, ?_, ?_, ?_, ?_, ?_, Encode_updateParams ck⟩
  · rw [h]; simp [GoMap.WF]
  · rw [h]; rfl
  · rw [hl]; simp
  · intro k
    rw [hl]; simp only [GoMap.get?, Check.Params, lookup_three]
    by_cases h3 : k = "type"
    · subst h3; simp
    · simp [h3]
  · intro lib pc id
    simp only [UpdateCheck, h]
    cases NewRequest lib pc "PUT" ("/api/2.0/checks/" ++ Itoa id)
        (some [("name", ck.Name), ("host", ck.Hostname)]) with
    | panicked => rfl
    | returned r =>
      obtain ⟨req, err⟩ := r
      cases req <;> cases err <;> rfl

/-! ### The operations after the request is answered -/

theorem ListChecks_of_answer (lib : Lib) (pc : Client) (resp : Response)
    (h : Answers lib pc "GET" "/api/2.0/checks" none resp) :
    ListChecks lib pc =
      match ValidateResponse lib resp with
      | .panicked => .panicked
      | .returned (some err) => .returned (none, some err)
      | .returned none =>
        match Unmarshal lib decodeListChecksResponse resp.Body ⟨⟨none, []⟩⟩ with
        | (none, _) => .panicked
        | (some m, err) => .returned (m.Checks.elems, err) := by
  obtain ⟨req, h1, h2⟩ := h
  simp only [ListChecks, h1, h2]

theorem CreateCheck_of_answer (lib : Lib) (pc : Client) (ck : Check) (resp : Response)
    (h : Answers lib pc "POST" "/api/2.0/checks" (some ck.Params) resp) :
    CreateCheck lib pc ck =
      match ValidateResponse lib resp with
      | .panicked => .panicked
      | .returned (some err) => .returned (none, some err)
      | .returned none =>
        match Unmarshal lib decodeCheckResponse resp.Body ⟨Check.zero⟩ with
        | (none, _) => .panicked
        | (some m, err) => .returned (some m.Check, err) := by
  obtain ⟨req, h1, h2⟩ := h
  simp only [CreateCheck, h1, h2]

theorem ReadCheck_of_answer (lib : Lib) (pc : Client) (id : Int) (resp : Response)
    (h : Answers lib pc "GET" ("/api/2.0/checks/" ++ Itoa id) none resp) :
    ReadCheck lib pc id =
      match ValidateResponse lib resp with
      | .panicked => .panicked
      | .returned (some err) => .returned (none, some err)
      | .returned none =>
        match Unmarshal lib decodeCheckResponse resp.Body ⟨Check.zero⟩ with
        | (none, _) => .panicked
        | (some m, err) => .returned (some m.Check, err) := by
  obtain ⟨req, h1, h2⟩ := h
  simp only [ReadCheck, h1, h2]

theorem UpdateCheck_of_answer (lib : Lib) (pc : Client) (id : Int) (ck : Check) (resp : Response)
    (h : Answers lib pc "PUT" ("/api/2.0/checks/" ++ Itoa id) (some (updateParams ck)) resp) :
    UpdateCheck lib pc id ck =
      match ValidateResponse lib resp with
      | .panicked => .panicked
      | .returned (some err) => .returned (none, some err)
      | .returned none => .returned (Unmarshal lib decodePingdomResponse resp.Body ⟨""⟩) := by
  obtain ⟨req, h1, h2⟩ := h
  simp only [UpdateCheck, h1, h2]

theorem DeleteCheck_of_answer (lib : Lib) (pc : Client) (id : Int) (resp : Response)
    (h : Answers lib pc "DELETE" ("/api/2.0/checks/" ++ Itoa id) none resp) :
    DeleteCheck lib pc id =
      match ValidateResponse lib resp with
      | .panicked => .panicked
      | .returned (some err) => .returned (none, some err)
      | .returned none => .returned (Unmarshal lib decodePingdomResponse resp.Body ⟨""⟩) := by
  obtain ⟨req, h1, h2⟩ := h
  simp only [DeleteCheck, h1, h2]

/-! ### The error envelope -/

theorem decode_errorEnvelope (c : Int) (d m : String) (hc : fitsInt64 c) :
    decodePingdomErrorResponse (errorEnvelope c d m) ⟨⟨0, "", ""⟩⟩ = (⟨⟨c, d, m⟩⟩, none) := by
  simp [decodePingdomErrorResponse, errorEnvelope, decodeStruct, decodeMember, lookupField,
    decodePingdomError, storeInt, storeString, firstError, hc]

theorem ValidateResponse_envelope (lib : Lib) (resp : Response) (c : Int) (d m : String)
    (hst : ¬ (200 ≤ resp.StatusCode ∧ resp.StatusCode ≤ 299))
    (hbody : lib.jsonScan resp.Body = .ok (errorEnvelope c d m)) (hc : fitsInt64 c) :
    ValidateResponse lib resp = .returned (some (.pingdom ⟨c, d, m⟩)) := by
  have hu : Unmarshal lib decodePingdomErrorResponse resp.Body ⟨⟨0, "", ""⟩⟩
      = (some ⟨⟨c, d, m⟩⟩, none) := by
    simp only [Unmarshal, hbody, errorEnvelope]
    have := decode_errorEnvelope c d m hc
    simp only [errorEnvelope] at this
    simp [this]
  simp only [ValidateResponse, if_neg hst, hu]

theorem Error_eq (c : Int) (d m : String) :
    PingdomError.Error ⟨c, d, m⟩ = Itoa c ++ " " ++ d ++ ": " ++ m := by
  simp [PingdomError.Error, Sprintf, sprintfLoop, fmtVerb, FmtArg.value, fmtExtra]
  apply String.ext
  simp [String.data_append, Char.toString, String.singleton, String.push]

/-- C3: for every status code (any integer, zero and negatives included),
description and message, `Error()` is the decimal code, one space, the
description, the two characters `": "`, and the message. -/
theorem PingdomError_Error_format (c : Int) (d m : String) :
    PingdomError.Error ⟨c, d, m⟩ = Itoa c ++ " " ++ d ++ ": " ++ m :=
  Error_eq c d m

/-- C2: when the status code is outside 200..299 and the body is the error
envelope with status code `c` (an `int`), description `d` and message `m`,
`ValidateResponse` returns the `PingdomError` with exactly these three fields,
every operation whose request was answered with that response returns a nil
result and that error, and the error renders as `"c d: m"`. -/
theorem server_error_is_decoded (lib : Lib) (pc : Client) (resp : Response) (c : Int)
    (d m : String) (hst : ¬ (200 ≤ resp.StatusCode ∧ resp.StatusCode ≤ 299))
    (hbody : lib.jsonScan resp.Body = .ok (errorEnvelope c d m)) (hc : fitsInt64 c) :
    ValidateResponse lib resp = .returned (some (.pingdom ⟨c, d, m⟩))
    ∧ (Answers lib pc "GET" "/api/2.0/checks" none resp →
        ListChecks lib pc = .returned (none, some (.pingdom ⟨c, d, m⟩)))
    ∧ (∀ ck : Check, Answers lib pc "POST" "/api/2.0/checks" (some ck.Params) resp →
        CreateCheck lib pc ck = .returned (none, some (.pingdom ⟨c, d, m⟩)))
    ∧ (∀ id : Int, Answers lib pc "GET" ("/api/2.0/checks/" ++ Itoa id) none resp →
        ReadCheck lib pc id = .returned (none, some (.pingdom ⟨c, d, m⟩)))
    ∧ (∀ (id : Int) (ck : Check),
        Answers lib pc "PUT" ("/api/2.0/checks/" ++ Itoa id) (some (updateParams ck)) resp →
        UpdateCheck lib pc id ck = .returned (none, some (.pingdom ⟨c, d, m⟩)))
    ∧ (∀ id : Int, Answers lib pc "DELETE" ("/api/2.0/checks/" ++ Itoa id) none resp →
        DeleteCheck lib pc id = .returned (none, some (.pingdom ⟨c, d, m⟩)))
    ∧ PingdomError.Error ⟨c, d, m⟩ = Itoa c ++ " " ++ d ++ ": " ++ m := by
  have hv := ValidateResponse_envelope lib resp c d m hst hbody hc
  refine ⟨hv, ?_, ?_, ?_, ?_, ?_, Error_eq c d m⟩
  · intro h; rw [ListChecks_of_answer lib pc resp h, hv]
  · intro ck h; rw [CreateCheck_of_answer lib pc ck resp h, hv]
  · intro id h; rw [ReadCheck_of_answer lib pc id resp h, hv]
  · intro id ck h; rw [UpdateCheck_of_answer lib pc id ck resp h, hv]
  · intro id h; rw [DeleteCheck_of_answer lib pc id resp h, hv]

/-- Witness of C2: a transport answering 404 with the envelope of the
specification makes `ReadCheck` return the error rendered
`"404 Not Found: no such check"`. -/
theorem server_error_is_decoded_witness :
    ReadCheck (refLib (mockTransport notFoundResponse))
        (exampleClient (mockTransport notFoundResponse)) 7
      = .returned (none, some (.pingdom ⟨404, "Not Found", "no such check"⟩))
    ∧ PingdomError.Error ⟨404, "Not Found", "no such check"⟩ = "404 Not Found: no such check" :=
  ⟨(server_error_is_decoded (refLib (mockTransport notFoundResponse))
      (exampleClient (mockTransport notFoundResponse)) notFoundResponse 404 "Not Found"
      "no such check" (by decide) (by rfl) (by decide)).2.2.2.1 7 ⟨_, rfl, rfl⟩,
   by decide⟩

/-! ### Failures of the transport, of the body and of the request -/

/-- C1 (the code departs from it): when the request of an operation is built
and the transport fails on it, so that `Do` returns no response and an error,
each of the five operations panics at `defer resp.Body.Close()`; none returns
the transport error. -/
theorem transport_error_panics (lib : Lib) (pc : Client) (err : GoError) (id : Int) (ck : Check)
    (hL : TransportFails lib pc "GET" "/api/2.0/checks" none err)
    (hC : TransportFails lib pc "POST" "/api/2.0/checks" (some ck.Params) err)
    (hR : TransportFails lib pc "GET" ("/api/2.0/checks/" ++ Itoa id) none err)
    (hU : TransportFails lib pc "PUT" ("/api/2.0/checks/" ++ Itoa id) (some (updateParams ck)) err)
    (hD : TransportFails lib pc "DELETE" ("/api/2.0/checks/" ++ Itoa id) none err) :
    ListChecks lib pc = .panicked ∧ CreateCheck lib pc ck = .panicked
    ∧ ReadCheck lib pc id = .panicked ∧ UpdateCheck lib pc id ck = .panicked
    ∧ DeleteCheck lib pc id = .panicked := by
  obtain ⟨r1, a1, b1⟩ := hL
  obtain ⟨r2, a2, b2⟩ := hC
  obtain ⟨r3, a3, b3⟩ := hR
  obtain ⟨r4, a4, b4⟩ := hU
  obtain ⟨r5, a5, b5⟩ := hD
  refine ⟨?_, ?_, ?_, ?_, ?_⟩
  · simp only [ListChecks, a1, b1]
  · simp only [CreateCheck, a2, b2]
  · simp only [ReadCheck, a3, b3]
  · simp only [UpdateCheck, a4, b4]
  · simp only [DeleteCheck, a5, b5]

/-- Witness of C1: with a transport that refuses every connection, the five
operations of a client made by `NewClient` panic. -/
theorem transport_error_panics_witness :
    ListChecks (refLib (failingTransport (.lib "connection refused")))
        (exampleClient (failingTransport (.lib "connection refused"))) = .panicked
    ∧ ReadCheck (refLib (failingTransport (.lib "connection refused")))
        (exampleClient (failingTransport (.lib "connection refused"))) 7 = .panicked :=
  have h := transport_error_panics (refLib (failingTransport (.lib "connection refused")))
    (exampleClient (failingTransport (.lib "connection refused"))) (.lib "connection refused") 7
    Check.zero ⟨_, rfl, rfl⟩ ⟨_, rfl, rfl⟩ ⟨_, rfl, rfl⟩ ⟨_, rfl, rfl⟩ ⟨_, rfl, rfl⟩
  ⟨h.1, h.2.2.1⟩

/-- C7: when the status code is in 200..299 and the body is not valid JSON,
`ListChecks` and `ReadCheck` return the syntax error of the JSON decoder (with
it `ListChecks` returns the nil slice and `ReadCheck` the address of a zero
`Check`); the error is never nil. -/
theorem malformed_body_is_decode_error (lib : Lib) (pc : Client) (resp : Response) (msg : String)
    (hst : 200 ≤ resp.StatusCode ∧ resp.StatusCode ≤ 299)
    (hbody : lib.jsonScan resp.Body = .error msg) :
    (Answers lib pc "GET" "/api/2.0/checks" none resp →
        ListChecks lib pc = .returned (none, some (.jsonSyntax msg)))
    ∧ (∀ id : Int, Answers lib pc "GET" ("/api/2.0/checks/" ++ Itoa id) none resp →
        ReadCheck lib pc id = .returned (some Check.zero, some (.jsonSyntax msg))) := by
  have hv : ValidateResponse lib resp = .returned none := by
    simp only [ValidateResponse, if_pos hst]
  constructor
  · intro h
    rw [ListChecks_of_answer lib pc resp h, hv]
    simp only [Unmarshal, hbody]
  · intro id h
    rw [ReadCheck_of_answer lib pc id resp h, hv]
    simp only [Unmarshal, hbody]

/-- Witness of C7: status 200 with an HTML page as body. -/
theorem malformed_body_is_decode_error_witness :
    ListChecks (refLib (mockTransport ⟨200, "<html>"⟩)) (exampleClient (mockTransport ⟨200, "<html>"⟩))
      = .returned (none, some (.jsonSyntax "invalid JSON"))
    ∧ ReadCheck (refLib (mockTransport ⟨200, "<html>"⟩)) (exampleClient (mockTransport ⟨200, "<html>"⟩)) 7
      = .returned (some Check.zero, some (.jsonSyntax "invalid JSON")) :=
  have h := malformed_body_is_decode_error (refLib (mockTransport ⟨200, "<html>"⟩))
    (exampleClient (mockTransport ⟨200, "<html>"⟩)) ⟨200, "<html>"⟩ "invalid JSON"
    (by decide) (by rfl)
  ⟨h.1 ⟨_, rfl, rfl⟩, h.2 7 ⟨_, rfl, rfl⟩⟩

/-- C9 (the code departs from it): when the status code is outside 200..299
and the body is the JSON value `null`, `ValidateResponse` does not return an
error: `json.Unmarshal` sets the pointer `m` to nil and `&m.Error` panics. -/
theorem ValidateResponse_null_panics (lib : Lib) (resp : Response)
    (hst : ¬ (200 ≤ resp.StatusCode ∧ resp.StatusCode ≤ 299))
    (hbody : lib.jsonScan resp.Body = .ok .null) :
    ValidateResponse lib resp = .panicked := by
  simp only [ValidateResponse, if_neg hst, Unmarshal, hbody]

/-- Witness of C9: status 500 with the body `null`. -/
theorem ValidateResponse_null_panics_witness :
    ValidateResponse (refLib (mockTransport ⟨500, "null"⟩)) ⟨500, "null"⟩ = .panicked :=
  ValidateResponse_null_panics (refLib (mockTransport ⟨500, "null"⟩)) ⟨500, "null"⟩
    (by decide) (by rfl)

/-- The result of `ValidateResponse` is nil exactly for the status codes 200..299. -/
theorem ValidateResponse_nil_iff (lib : Lib) (resp : Response) :
    ValidateResponse lib resp = .returned none
      ↔ (200 ≤ resp.StatusCode ∧ resp.StatusCode ≤ 299) := by
  constructor
  · intro h
    by_contra hst
    simp only [ValidateResponse, if_neg hst] at h
    split at h <;> simp at h
  · intro hst
    simp only [ValidateResponse, if_pos hst]

/-- When base URL and resource path do not parse, `NewRequest` returns no
request and the error of `url.Parse`. -/
theorem NewRequest_parse_error (lib : Lib) (pc : Client) (method rsc : String)
    (params : Option GoMap) (base : URL) (err : GoError) (hbase : pc.BaseURL = some base)
    (hparse : lib.urlParse (base.String ++ rsc) = .error err) :
    NewRequest lib pc method rsc params = .returned (none, some err) := by
  simp only [NewRequest, hbase, hparse]

/-- C10 (the code departs from it): when base URL and resource path parse but
`http.NewRequest` rejects the method, `NewRequest` does not return the error:
`req.SetBasicAuth` is called on the nil request and panics. -/
theorem NewRequest_invalid_method_panics (lib : Lib) (pc : Client) (method rsc : String)
    (params : Option GoMap) (base u : URL) (hbase : pc.BaseURL = some base)
    (hparse : lib.urlParse (base.String ++ rsc) = .ok u) (hne : method ≠ "")
    (hbad : validMethod method = false) :
    NewRequest lib pc method rsc params = .panicked := by
  simp only [NewRequest, hbase, hparse, httpNewRequest, if_neg hne, hbad]
  rfl

/-- Witness of C10: the method `BAD METHOD`, which holds a space. -/
theorem NewRequest_invalid_method_panics_witness :
    NewRequest (refLib (mockTransport ⟨200, ""⟩)) (exampleClient (mockTransport ⟨200, ""⟩))
      "BAD METHOD" "/api/2.0/checks" none = .panicked :=
  NewRequest_invalid_method_panics (refLib (mockTransport ⟨200, ""⟩))
    (exampleClient (mockTransport ⟨200, ""⟩)) "BAD METHOD" "/api/2.0/checks" none
    _ _ rfl rfl (by decide) (by decide)

/-! ### Decoding a list of checks -/

theorem Agree_zero (c : Check) : Agree [] Check.zero c := by
  simp [Agree, Check.zero]

theorem agree_keep {α : Type} {x y z : α} {k k' : String} {v v' : Json}
    {seen : List (String × Json)} (h : x = y ∨ (x = z ∧ (k, v) ∉ seen)) (hne : k ≠ k') :
    x = y ∨ (x = z ∧ (k, v) ∉ (k', v') :: seen) := by
  rcases h with e | ⟨e, hn⟩
  · exact Or.inl e
  · refine Or.inr ⟨e, ?_⟩
    simp only [List.mem_cons, not_or]
    exact ⟨fun hc => hne (congrArg Prod.fst hc), hn⟩

theorem decodeMember_id (acc : Check) (v : Int) (h : fitsInt64 v) :
    decodeMember checkFields (acc, none) ("id", Json.int v) = ({ acc with ID := v }, none) := by
  have e : storeInt (Json.int v) acc.ID = (v, none) := by simp [storeInt, h]
  show (let r := storeInt (Json.int v) acc.ID; ({ acc with ID := r.1 }, firstError none r.2)) = _
  rw [e]
  rfl

theorem decodeMember_name (acc : Check) (v : String) :
    decodeMember checkFields (acc, none) ("name", Json.str v) = ({ acc with Name := v }, none) := by
  have e : storeString (Json.str v) acc.Name = (v, none) := by simp [storeString]
  show (let r := storeString (Json.str v) acc.Name; ({ acc with Name := r.1 }, firstError none r.2)) = _
  rw [e]
  rfl

theorem decodeMember_resolution (acc : Check) (v : Int) (h : fitsInt64 v) :
    decodeMember checkFields (acc, none) ("resolution", Json.int v) = ({ acc with Resolution := v }, none) := by
  have e : storeInt (Json.int v) acc.Resolution = (v, none) := by simp [storeInt, h]
  show (let r := storeInt (Json.int v) acc.Resolution; ({ acc with Resolution := r.1 }, firstError none r.2)) = _
  rw [e]
  rfl

theorem decodeMember_sendtoemail (acc : Check) (v : Bool) :
    decodeMember checkFields (acc, none) ("sendtoemail", Json.bool v) = ({ acc with SendToEmail := v }, none) := by
  have e : storeBool (Json.bool v) acc.SendToEmail = (v, none) := by simp [storeBool]
  show (let r := storeBool (Json.bool v) acc.SendToEmail; ({ acc with SendToEmail := r.1 }, firstError none r.2)) = _
  rw [e]
  rfl

theorem decodeMember_sendtotwitter (acc : Check) (v : Bool) :
    decodeMember checkFields (acc, none) ("sendtotwitter", Json.bool v) = ({ acc with SendToTwitter := v }, none) := by
  have e : storeBool (Json.bool v) acc.SendToTwitter = (v, none) := by simp [storeBool]
  show (let r := storeBool (Json.bool v) acc.SendToTwitter; ({ acc with SendToTwitter := r.1 }, firstError none r.2)) = _
  rw [e]
  rfl

theorem decodeMember_sendtoiphone (acc : Check) (v : Bool) :
    decodeMember checkFields (acc, none) ("sendtoiphone", Json.bool v) = ({ acc with SendToIPhone := v }, none) := by
  have e : storeBool (Json.bool v) acc.SendToIPhone = (v, none) := by simp [storeBool]
  show (let r := storeBool (Json.bool v) acc.SendToIPhone; ({ acc with SendToIPhone := r.1 }, firstError none r.2)) = _
  rw [e]
  rfl

theorem decodeMember_sendnotificationwhendown (acc : Check) (v : Int) (h : fitsInt64 v) :
    decodeMember checkFields (acc, none) ("sendnotificationwhendown", Json.int v) = ({ acc with SendNotificationWhenDown := v }, none) := by
  have e : storeInt (Json.int v) acc.SendNotificationWhenDown = (v, none) := by simp [storeInt, h]
  show (let r := storeInt (Json.int v) acc.SendNotificationWhenDown; ({ acc with SendNotificationWhenDown := r.1 }, firstError none r.2)) = _
  rw [e]
  rfl

theorem decodeMember_notifyagainevery (acc : Check) (v : Int) (h : fitsInt64 v) :
    decodeMember checkFields (acc, none) ("notifyagainevery", Json.int v) = ({ acc with NotifyAgainEvery := v }, none) := by
  have e : storeInt (Json.int v) acc.NotifyAgainEvery = (v, none) := by simp [storeInt, h]
  show (let r := storeInt (Json.int v) acc.NotifyAgainEvery; ({ acc with NotifyAgainEvery := r.1 }, firstError none r.2)) = _
  rw [e]
  rfl

theorem decodeMember_notifywhenbackup (acc : Check) (v : Bool) :
    decodeMember checkFields (acc, none) ("notifywhenbackup", Json.bool v) = ({ acc with NotifyWhenBackup := v }, none) := by
  have e : storeBool (Json.bool v) acc.NotifyWhenBackup = (v, none) := by simp [storeBool]
  show (let r := storeBool (Json.bool v) acc.NotifyWhenBackup; ({ acc with NotifyWhenBackup := r.1 }, firstError none r.2)) = _
  rw [e]
  rfl

theorem decodeMember_created (acc : Check) (v : Int) (h : fitsInt64 v) :
    decodeMember checkFields (acc, none) ("created", Json.int v) = ({ acc with Created := v }, none) := by
  have e : storeInt (Json.int v) acc.Created = (v, none) := by simp [storeInt, h]
  show (let r := storeInt (Json.int v) acc.Created; ({ acc with Created := r.1 }, firstError none r.2)) = _
  rw [e]
  rfl

theorem decodeMember_hostname (acc : Check) (v : String) :
    decodeMember checkFields (acc, none) ("hostname", Json.str v) = ({ acc with Hostname := v }, none) := by
  have e : storeString (Json.str v) acc.Hostname = (v, none) := by simp [storeString]
  show (let r := storeString (Json.str v) acc.Hostname; ({ acc with Hostname := r.1 }, firstError none r.2)) = _
  rw [e]
  rfl

theorem decodeMember_status (acc : Check) (v : String) :
    decodeMember checkFields (acc, none) ("status", Json.str v) = ({ acc with Status := v }, none) := by
  have e : storeString (Json.str v) acc.Status = (v, none) := by simp [storeString]
  show (let r := storeString (Json.str v) acc.Status; ({ acc with Status := r.1 }, firstError none r.2)) = _
  rw [e]
  rfl

theorem decodeMember_lasterrortime (acc : Check) (v : Int) (h : fitsInt64 v) :
    decodeMember checkFields (acc, none) ("lasterrortime", Json.int v) = ({ acc with LastErrorTime := v }, none) := by
  have e : storeInt (Json.int v) acc.LastErrorTime = (v, none) := by simp [storeInt, h]
  show (let r := storeInt (Json.int v) acc.LastErrorTime; ({ acc with LastErrorTime := r.1 }, firstError none r.2)) = _
  rw [e]
  rfl

theorem decodeMember_lasttesttime (acc : Check) (v : Int) (h : fitsInt64 v) :
    decodeMember checkFields (acc, none) ("lasttesttime", Json.int v) = ({ acc with LastTestTime := v }, none) := by
  have e : storeInt (Json.int v) acc.LastTestTime = (v, none) := by simp [storeInt, h]
  show (let r := storeInt (Json.int v) acc.LastTestTime; ({ acc with LastTestTime := r.1 }, firstError none r.2)) = _
  rw [e]
  rfl

theorem decodeMember_lastresponsetime (acc : Check) (v : Int) (h : fitsInt64 v) :
    decodeMember checkFields (acc, none) ("lastresponsetime", Json.int v) = ({ acc with LastResponseTime := v }, none) := by
  have e : storeInt (Json.int v) acc.LastResponseTime = (v, none) := by simp [storeInt, h]
  show (let r := storeInt (Json.int v) acc.LastResponseTime; ({ acc with LastResponseTime := r.1 }, firstError none r.2)) = _
  rw [e]
  rfl

theorem decodeMember_agree (c acc : Check) (seen : List (String × Json)) (kv : String × Json)
    (hfit : c.Fits) (hkv : kv ∈ c.members) (h : Agree seen acc c) :
    ∃ acc', decodeMember checkFields (acc, none) kv = (acc', none) ∧ Agree (kv :: seen) acc' c := by
  obtain ⟨f1, f2, f3, f4, f5, f6, f7, f8⟩ := hfit
  obtain ⟨a1, a2, a3, a4, a5, a6, a7, a8, a9, a10, a11, a12, a13, a14, a15⟩ := h
  simp only [Check.members, List.mem_cons, List.mem_singleton, List.not_mem_nil, or_false] at hkv
  rcases hkv with rfl | rfl | rfl | rfl | rfl | rfl | rfl | rfl | rfl | rfl | rfl | rfl | rfl | rfl | rfl
  · exact ⟨_, decodeMember_id acc _ f1,
      Or.inl rfl, agree_keep a2 (by decide), agree_keep a3 (by decide),
      agree_keep a4 (by decide), agree_keep a5 (by decide), agree_keep a6 (by decide),
      agree_keep a7 (by decide), agree_keep a8 (by decide), agree_keep a9 (by decide),
      agree_keep a10 (by decide), agree_keep a11 (by decide), agree_keep a12 (by decide),
      agree_keep a13 (by decide), agree_keep a14 (by decide), agree_keep a15 (by decide)⟩
  · exact ⟨_, decodeMember_name acc _,
      agree_keep a1 (by decide), Or.inl rfl, agree_keep a3 (by decide),
      agree_keep a4 (by decide), agree_keep a5 (by decide), agree_keep a6 (by decide),
      agree_keep a7 (by decide), agree_keep a8 (by decide), agree_keep a9 (by decide),
      agree_keep a10 (by decide), agree_keep a11 (by decide), agree_keep a12 (by decide),
      agree_keep a13 (by decide), agree_keep a14 (by decide), agree_keep a15 (by decide)⟩
  · exact ⟨_, decodeMember_resolution acc _ f2,
      agree_keep a1 (by decide), agree_keep a2 (by decide), Or.inl rfl,
      agree_keep a4 (by decide), agree_keep a5 (by decide), agree_keep a6 (by decide),
      agree_keep a7 (by decide), agree_keep a8 (by decide), agree_keep a9 (by decide),
      agree_keep a10 (by decide), agree_keep a11 (by decide), agree_keep a12 (by decide),
      agree_keep a13 (by decide), agree_keep a14 (by decide), agree_keep a15 (by decide)⟩
  · exact ⟨_, decodeMember_sendtoemail acc _,
      agree_keep a1 (by decide), agree_keep a2 (by decide), agree_keep a3 (by decide),
      Or.inl rfl, agree_keep a5 (by decide), agree_keep a6 (by decide),
      agree_keep a7 (by decide), agree_keep a8 (by decide), agree_keep a9 (by decide),
      agree_keep a10 (by decide), agree_keep a11 (by decide), agree_keep a12 (by decide),
      agree_keep a13 (by decide), agree_keep a14 (by decide), agree_keep a15 (by decide)⟩
  · exact ⟨_, decodeMember_sendtotwitter acc _,
      agree_keep a1 (by decide), agree_keep a2 (by decide), agree_keep a3 (by decide),
      agree_keep a4 (by decide), Or.inl rfl, agree_keep a6 (by decide),
      agree_keep a7 (by decide), agree_keep a8 (by decide), agree_keep a9 (by decide),
      agree_keep a10 (by decide), agree_keep a11 (by decide), agree_keep a12 (by decide),
      agree_keep a13 (by decide), agree_keep a14 (by decide), agree_keep a15 (by decide)⟩
  · exact ⟨_, decodeMember_sendtoiphone acc _,
      agree_keep a1 (by decide), agree_keep a2 (by decide), agree_keep a3 (by decide),
      agree_keep a4 (by decide), agree_keep a5 (by decide), Or.inl rfl,
      agree_keep a7 (by decide), agree_keep a8 (by decide), agree_keep a9 (by decide),
      agree_keep a10 (by decide), agree_keep a11 (by decide), agree_keep a12 (by decide),
      agree_keep a13 (by decide), agree_keep a14 (by decide), agree_keep a15 (by decide)⟩
  · exact ⟨_, decodeMember_sendnotificationwhendown acc _ f3,
      agree_keep a1 (by decide), agree_keep a2 (by decide), agree_keep a3 (by decide),
      agree_keep a4 (by decide), agree_keep a5 (by decide), agree_keep a6 (by decide),
      Or.inl rfl, agree_keep a8 (by decide), agree_keep a9 (by decide),
      agree_keep a10 (by decide), agree_keep a11 (by decide), agree_keep a12 (by decide),
      agree_keep a13 (by decide), agree_keep a14 (by decide), agree_keep a15 (by decide)⟩
  · exact ⟨_, decodeMember_notifyagainevery acc _ f4,
      agree_keep a1 (by decide), agree_keep a2 (by decide), agree_keep a3 (by decide),
      agree_keep a4 (by decide), agree_keep a5 (by decide), agree_keep a6 (by decide),
      agree_keep a7 (by decide), Or.inl rfl, agree_keep a9 (by decide),
      agree_keep a10 (by decide), agree_keep a11 (by decide), agree_keep a12 (by decide),
      agree_keep a13 (by decide), agree_keep a14 (by decide), agree_keep a15 (by decide)⟩
  · exact ⟨_, decodeMember_notifywhenbackup acc _,
      agree_keep a1 (by decide), agree_keep a2 (by decide), agree_keep a3 (by decide),
      agree_keep a4 (by decide), agree_keep a5 (by decide), agree_keep a6 (by decide),
      agree_keep a7 (by decide), agree_keep a8 (by decide), Or.inl rfl,
      agree_keep a10 (by decide), agree_keep a11 (by decide), agree_keep a12 (by decide),
      agree_keep a13 (by decide), agree_keep a14 (by decide), agree_keep a15 (by decide)⟩
  · exact ⟨_, decodeMember_created acc _ f5,
      agree_keep a1 (by decide), agree_keep a2 (by decide), agree_keep a3 (by decide),
      agree_keep a4 (by decide), agree_keep a5 (by decide), agree_keep a6 (by decide),
      agree_keep a7 (by decide), agree_keep a8 (by decide), agree_keep a9 (by decide),
      Or.inl rfl, agree_keep a11 (by decide), agree_keep a12 (by decide),
      agree_keep a13 (by decide), agree_keep a14 (by decide), agree_keep a15 (by decide)⟩
  · exact ⟨_, decodeMember_hostname acc _,
      agree_keep a1 (by decide), agree_keep a2 (by decide), agree_keep a3 (by decide),
      agree_keep a4 (by decide), agree_keep a5 (by decide), agree_keep a6 (by decide),
      agree_keep a7 (by decide), agree_keep a8 (by decide), agree_keep a9 (by decide),
      agree_keep a10 (by decide), Or.inl rfl, agree_keep a12 (by decide),
      agree_keep a13 (by decide), agree_keep a14 (by decide), agree_keep a15 (by decide)⟩
  · exact ⟨_, decodeMember_status acc _,
      agree_keep a1 (by decide), agree_keep a2 (by decide), agree_keep a3 (by decide),
      agree_keep a4 (by decide), agree_keep a5 (by decide), agree_keep a6 (by decide),
      agree_keep a7 (by decide), agree_keep a8 (by decide), agree_keep a9 (by decide),
      agree_keep a10 (by decide), agree_keep a11 (by decide), Or.inl rfl,
      agree_keep a13 (by decide), agree_keep a14 (by decide), agree_keep a15 (by decide)⟩
  · exact ⟨_, decodeMember_lasterrortime acc _ f6,
      agree_keep a1 (by decide), agree_keep a2 (by decide), agree_keep a3 (by decide),
      agree_keep a4 (by decide), agree_keep a5 (by decide), agree_keep a6 (by decide),
      agree_keep a7 (by decide), agree_keep a8 (by decide), agree_keep a9 (by decide),
      agree_keep a10 (by decide), agree_keep a11 (by decide), agree_keep a12 (by decide),
      Or.inl rfl, agree_keep a14 (by decide), agree_keep a15 (by decide)⟩
  · exact ⟨_, decodeMember_lasttesttime acc _ f7,
      agree_keep a1 (by decide), agree_keep a2 (by decide), agree_keep a3 (by decide),
      agree_keep a4 (by decide), agree_keep a5 (by decide), agree_keep a6 (by decide),
      agree_keep a7 (by decide), agree_keep a8 (by decide), agree_keep a9 (by decide),
      agree_keep a10 (by decide), agree_keep a11 (by decide), agree_keep a12 (by decide),
      agree_keep a13 (by decide), Or.inl rfl, agree_keep a15 (by decide)⟩
  · exact ⟨_, decodeMember_lastresponsetime acc _ f8,
      agree_keep a1 (by decide), agree_keep a2 (by decide), agree_keep a3 (by decide),
      agree_keep a4 (by decide), agree_keep a5 (by decide), agree_keep a6 (by decide),
      agree_keep a7 (by decide), agree_keep a8 (by decide), agree_keep a9 (by decide),
      agree_keep a10 (by decide), agree_keep a11 (by decide), agree_keep a12 (by decide),
      agree_keep a13 (by decide), agree_keep a14 (by decide), Or.inl rfl⟩

theorem foldl_decodeMember_agree (c : Check) (hfit : c.Fits) (ms seen : List (String × Json))
    (acc : Check) (hms : ∀ kv ∈ ms, kv ∈ c.members) (h : Agree seen acc c) :
    ∃ acc', ms.foldl (decodeMember checkFields) (acc, none) = (acc', none)
      ∧ Agree (ms.reverse ++ seen) acc' c := by
  induction ms generalizing seen acc with
  | nil => exact ⟨acc, rfl, by simpa using h⟩
  | cons kv t ih =>
    obtain ⟨acc₁, e₁, h₁⟩ := decodeMember_agree c acc seen kv hfit (hms kv (by simp)) h
    obtain ⟨acc₂, e₂, h₂⟩ := ih (kv :: seen) acc₁ (fun x hx => hms x (List.mem_cons_of_mem _ hx)) h₁
    refine ⟨acc₂, ?_, ?_⟩
    · simp only [List.foldl_cons, e₁, e₂]
    · simpa [List.reverse_cons, List.append_assoc] using h₂

theorem agree_final {α : Type} {x y z : α} {k : String} {v : Json} {ms : List (String × Json)}
    (h : x = y ∨ (x = z ∧ (k, v) ∉ ms.reverse ++ [])) (hz : (k, v) ∉ ms → y = z) : x = y := by
  rcases h with e | ⟨e, hn⟩
  · exact e
  · rw [e, hz (by simpa using hn)]

theorem decodeCheck_describes (o : Json) (c : Check) (hfit : c.Fits) (h : DescribesCheck o c) :
    decodeCheck o Check.zero = (c, none) := by
  obtain ⟨ms, rfl, hsub, hzero⟩ := h
  obtain ⟨acc, e, hag⟩ := foldl_decodeMember_agree c hfit ms [] Check.zero hsub (Agree_zero c)
  have hacc : acc = c := by
    obtain ⟨a1, a2, a3, a4, a5, a6, a7, a8, a9, a10, a11, a12, a13, a14, a15⟩ := hag
    have z : ∀ kv ∈ c.members, kv ∉ ms → isZeroValue kv.2 = true := hzero
    simp only [Check.members, List.mem_cons, List.mem_singleton, List.not_mem_nil, or_false,
      forall_eq_or_imp, forall_eq, isZeroValue, beq_iff_eq, Bool.not_eq_true'] at z
    obtain ⟨z1, z2, z3, z4, z5, z6, z7, z8, z9, z10, z11, z12, z13, z14, z15⟩ := z
    have e1 := agree_final a1 z1
    have e2 := agree_final a2 z2
    have e3 := agree_final a3 z3
    have e4 := agree_final a4 z4
    have e5 := agree_final a5 z5
    have e6 := agree_final a6 z6
    have e7 := agree_final a7 z7
    have e8 := agree_final a8 z8
    have e9 := agree_final a9 z9
    have e10 := agree_final a10 z10
    have e11 := agree_final a11 z11
    have e12 := agree_final a12 z12
    have e13 := agree_final a13 z13
    have e14 := agree_final a14 z14
    have e15 := agree_final a15 z15
    cases acc
    cases c
    simp_all
  simp only [decodeCheck, decodeStruct, e, hacc]

theorem decodeElems_describes (objs : List Json) (cs : List Check)
    (h : List.Forall₂ DescribesCheck objs cs) (hfit : ∀ c ∈ cs, c.Fits) :
    decodeElems objs [] = (cs, none) := by
  induction h with
  | nil => rfl
  | @cons o c os cs' hd _ ih =>
    simp only [decodeElems, List.headD_nil, List.tail_nil]
    rw [decodeCheck_describes o c (hfit c (by simp)) hd,
      ih (fun x hx => hfit x (List.mem_cons_of_mem _ hx))]
    rfl

theorem storeCheckSlice_describes (objs : List Json) (cs : List Check)
    (h : List.Forall₂ DescribesCheck objs cs) (hfit : ∀ c ∈ cs, c.Fits) :
    ∃ spare, storeCheckSlice (.arr objs) ⟨none, []⟩ = (⟨some cs, spare⟩, none) := by
  cases objs with
  | nil =>
    cases h
    exact ⟨[], rfl⟩
  | cons o os =>
    refine ⟨[], ?_⟩
    simp only [storeCheckSlice, Option.getD_none, List.append_nil, List.drop_nil]
    rw [decodeElems_describes (o :: os) cs h hfit]

/-- C8: when the status code is in 200..299 and the body is the object with
the one member `checks`, an array of `n` well-formed check objects,
`ListChecks` returns a nil error and the `n` checks these objects describe, in
the order of the array; fields an object leaves out are zero. -/
theorem ListChecks_returns_body_checks (lib : Lib) (pc : Client) (resp : Response)
    (objs : List Json) (cs : List Check)
    (hans : Answers lib pc "GET" "/api/2.0/checks" none resp)
    (hst : 200 ≤ resp.StatusCode ∧ resp.StatusCode ≤ 299)
    (hbody : lib.jsonScan resp.Body = .ok (.obj [("checks", .arr objs)]))
    (hwf : List.Forall₂ DescribesCheck objs cs) (hfit : ∀ c ∈ cs, c.Fits) :
    ListChecks lib pc = .returned (some cs, none) ∧ cs.length = objs.length := by
  have hv : ValidateResponse lib resp = .returned none := by
    simp only [ValidateResponse, if_pos hst]
  obtain ⟨spare, hs⟩ := storeCheckSlice_describes objs cs hwf hfit
  have hd : decodeListChecksResponse (.obj [("checks", .arr objs)]) ⟨⟨none, []⟩⟩
      = (⟨⟨some cs, spare⟩⟩, none) := by
    show (let r := storeCheckSlice (.arr objs) ⟨none, []⟩;
      (({ Checks := r.1 } : ListChecksResponse), firstError none r.2)) = _
    rw [hs]
    rfl
  refine ⟨?_, hwf.length_eq.symm⟩
  rw [ListChecks_of_answer lib pc resp hans, hv]
  simp only [Unmarshal, hbody, hd]

/-- Witness of C8: the example of the specification. -/
theorem ListChecks_returns_body_checks_witness :
    ListChecks (refLib (mockTransport oneCheckResponse)) (exampleClient (mockTransport oneCheckResponse))
      = .returned (some [oneCheck], none) :=
  (ListChecks_returns_body_checks (refLib (mockTransport oneCheckResponse))
    (exampleClient (mockTransport oneCheckResponse)) oneCheckResponse
    [.obj [("id", .int 1), ("name", .str "a"), ("hostname", .str "a.com")]] [oneCheck]
    ⟨_, rfl, rfl⟩ (by decide) (by rfl)
    (List.Forall₂.cons ⟨_, rfl, by simp [Check.members, oneCheck, Check.zero],
      by simp [Check.members, oneCheck, Check.zero, isZeroValue]⟩ List.Forall₂.nil)
    (by decide)).1

end Pingdom
